import Mathlib

/-!
# Verification of the HuePass color-science and export engine

Shallow embedding of `src/scripts/contrast.ts`, `src/scripts/palette.ts` and
`src/scripts/color-blindness.ts`.  JavaScript numbers are modelled as exact
rationals (`ℚ`) wherever the source performs only field operations, rounding
and comparisons, and as real numbers (`ℝ`) where the source calls the
transcendental `Math.pow(·, 2.4)` (relative luminance, contrast, the sRGB
transfer functions).  `Math.round(x)` is `⌊x + 1/2⌋` (round half toward +∞),
matching JavaScript.  Strings are Lean `String`s; fallible parses return
`Option` (the source returns `null`, or lets `NaN` propagate, on the same
inputs).
-/

set_option maxRecDepth 8000

namespace HuePass

/-- `Math.round` on rationals: round half toward positive infinity. -/
def jround (x : ℚ) : ℤ := ⌊x + 1/2⌋

/-- `Math.round` on reals: round half toward positive infinity. -/
noncomputable def jroundR (x : ℝ) : ℤ := ⌊x + 1/2⌋

/-- RGB color: three channels, JavaScript numbers (`contrast.ts`, interface `RGB`). -/
structure RGB where
  r : ℚ
  g : ℚ
  b : ℚ
deriving DecidableEq

/-- HSL color (`contrast.ts`, interface `HSL`): hue in degrees, saturation and
lightness in percent. -/
structure HSL where
  h : ℚ
  s : ℚ
  l : ℚ
deriving DecidableEq

/-- A color is a valid RGB value when every channel lies in `[0, 255]`. -/
def InRange (c : RGB) : Prop :=
  0 ≤ c.r ∧ c.r ≤ 255 ∧ 0 ≤ c.g ∧ c.g ≤ 255 ∧ 0 ≤ c.b ∧ c.b ≤ 255

instance : DecidablePred InRange := fun c => by
  unfold InRange; infer_instance

/-! ## Hex codec (`contrast.ts`: `hexToRgb`, `rgbToHex`) -/

/-- Value of a single hex digit, case-insensitive; `none` for non-hex
characters (the regex `[a-f\d]` with the `i` flag / `parseInt(_, 16)`).
The numeric ranges are the codepoints of `0`–`9`, `a`–`f` and `A`–`F`. -/
def hexDigitVal (c : Char) : Option ℕ :=
  if 48 ≤ c.toNat ∧ c.toNat ≤ 57 then some (c.toNat - 48)
  else if 97 ≤ c.toNat ∧ c.toNat ≤ 102 then some (c.toNat - 97 + 10)
  else if 65 ≤ c.toNat ∧ c.toNat ≤ 70 then some (c.toNat - 65 + 10)
  else none

/-- `parseInt` of a two-hex-digit string, as used on each channel slice. -/
def hexPair (c1 c2 : Char) : Option ℕ :=
  (hexDigitVal c1).bind fun h => (hexDigitVal c2).bind fun l => some (16 * h + l)

/-- `hex.replace(/^#/, '')`: strip one leading `#`. -/
def hexSanitize (l : List Char) : List Char :=
  match l with
  | '#' :: rest => rest
  | l => l

/-- Expand 3-digit shorthand by doubling each character
(`split('').map(c => c + c).join('')`). -/
def hexExpand (l : List Char) : List Char :=
  if l.length = 3 then l.flatMap (fun c => [c, c]) else l

/-- The final regex match of `hexToRgb`: exactly six hex digits, grouped in
pairs, each pair parsed with `parseInt(_, 16)`. -/
def hexParse6 (l : List Char) : Option RGB :=
  match l with
  | [c1, c2, c3, c4, c5, c6] =>
      (hexPair c1 c2).bind fun r =>
        (hexPair c3 c4).bind fun g =>
          (hexPair c5 c6).bind fun b => some ⟨(r : ℚ), (g : ℚ), (b : ℚ)⟩
  | _ => none

/-- `hexToRgb` (`contrast.ts` lines 45–70): strip one leading `#`, expand
3-digit shorthand, then require exactly six hex digits; `null` (here
`none`) otherwise. -/
def hexToRgb (hex : String) : Option RGB :=
  hexParse6 (hexExpand (hexSanitize hex.toList))

/-- Lowercase hex digit character, as produced by JavaScript `toString(16)`. -/
def hexChar (n : ℕ) : Char := ("0123456789abcdef".toList).getD n '0'

/-- `n.toString(16)` for a byte value `n ≤ 255`: one or two lowercase digits. -/
def natHexChars (n : ℕ) : List Char :=
  if n < 16 then [hexChar n] else [hexChar (n / 16), hexChar (n % 16)]

/-- `.padStart(2, '0')` applied to the output of `natHexChars`. -/
def padStart2 (l : List Char) : List Char :=
  if l.length = 1 then '0' :: l else l

/-- Two lowercase hex digits for one channel: `toString(16).padStart(2, '0')`. -/
def hexByteChars (n : ℕ) : List Char := padStart2 (natHexChars n)

/-- `toHex` inside `rgbToHex`: `Math.max(0, Math.min(255, Math.round(n)))`. -/
def clampRound (c : ℚ) : ℤ := max 0 (min 255 (jround c))

/-- `rgbToHex` (`contrast.ts` lines 75–81): round, clamp to `[0,255]`, render
each channel as two lowercase hex digits behind a leading `#`. -/
def rgbToHex (rgb : RGB) : String :=
  String.mk ('#' :: (hexByteChars (clampRound rgb.r).toNat
    ++ hexByteChars (clampRound rgb.g).toNat
    ++ hexByteChars (clampRound rgb.b).toNat))

/-! ## RGB ↔ HSL (`contrast.ts`: `rgbToHsl`, `hslToRgb`) -/

/-- `Math.max(r, g, b)` over the scaled channels inside `rgbToHsl`. -/
def rgbMax (rgb : RGB) : ℚ := max (rgb.r / 255) (max (rgb.g / 255) (rgb.b / 255))

/-- `Math.min(r, g, b)` over the scaled channels inside `rgbToHsl`. -/
def rgbMin (rgb : RGB) : ℚ := min (rgb.r / 255) (min (rgb.g / 255) (rgb.b / 255))

/-- Lightness fraction `l = (max + min) / 2` of `rgbToHsl`. -/
def hslLf (rgb : RGB) : ℚ := (rgbMax rgb + rgbMin rgb) / 2

/-- Saturation fraction of `rgbToHsl`: `0` when `max = min`, else
`d / (2 - max - min)` when `l > 0.5` and `d / (max + min)` otherwise. -/
def hslSf (rgb : RGB) : ℚ :=
  if rgbMax rgb = rgbMin rgb then 0
  else if 1/2 < hslLf rgb then
    (rgbMax rgb - rgbMin rgb) / (2 - rgbMax rgb - rgbMin rgb)
  else (rgbMax rgb - rgbMin rgb) / (rgbMax rgb + rgbMin rgb)

/-- Hue fraction of `rgbToHsl`: `0` when `max = min`, else the `switch` on
which channel attains the max (`case r` first, then `case g`, then
`case b`), divided by 6. -/
def hslHf (rgb : RGB) : ℚ :=
  if rgbMax rgb = rgbMin rgb then 0
  else
    (if rgbMax rgb = rgb.r / 255 then
       (rgb.g / 255 - rgb.b / 255) / (rgbMax rgb - rgbMin rgb) +
         (if rgb.g / 255 < rgb.b / 255 then (6 : ℚ) else 0)
     else if rgbMax rgb = rgb.g / 255 then
       (rgb.b / 255 - rgb.r / 255) / (rgbMax rgb - rgbMin rgb) + 2
     else (rgb.r / 255 - rgb.g / 255) / (rgbMax rgb - rgbMin rgb) + 4) / 6

/-- `rgbToHsl` (`contrast.ts` lines 86–120), assembled from the fractions
above: hue in degrees, saturation and lightness in percent. -/
def rgbToHsl (rgb : RGB) : HSL := ⟨hslHf rgb * 360, hslSf rgb * 100, hslLf rgb * 100⟩

/-- The wrapped parameter of `hue2rgb`: `if (t < 0) t += 1; if (t > 1) t -= 1`. -/
def hue2rgbT (t0 : ℚ) : ℚ :=
  if 1 < (if t0 < 0 then t0 + 1 else t0) then (if t0 < 0 then t0 + 1 else t0) - 1
  else (if t0 < 0 then t0 + 1 else t0)

/-- `hue2rgb` helper inside `hslToRgb` (`contrast.ts` lines 135–142). -/
def hue2rgb (p q t0 : ℚ) : ℚ :=
  if hue2rgbT t0 < 1/6 then p + (q - p) * 6 * hue2rgbT t0
  else if hue2rgbT t0 < 1/2 then q
  else if hue2rgbT t0 < 2/3 then p + (q - p) * (2/3 - hue2rgbT t0) * 6
  else p

/-- `q` inside `hslToRgb`: `l < 0.5 ? l * (1 + s) : l + s - l * s` on the
de-scaled saturation and lightness. -/
def hslQ (hsl : HSL) : ℚ :=
  if hsl.l / 100 < 1/2 then (hsl.l / 100) * (1 + hsl.s / 100)
  else hsl.l / 100 + hsl.s / 100 - (hsl.l / 100) * (hsl.s / 100)

/-- `p = 2 * l - q` inside `hslToRgb`. -/
def hslP (hsl : HSL) : ℚ := 2 * (hsl.l / 100) - hslQ hsl

/-- `hslToRgb` (`contrast.ts` lines 125–156). -/
def hslToRgb (hsl : HSL) : RGB :=
  if hsl.s / 100 = 0 then
    ⟨((jround ((hsl.l / 100) * 255) : ℤ) : ℚ), ((jround ((hsl.l / 100) * 255) : ℤ) : ℚ),
     ((jround ((hsl.l / 100) * 255) : ℤ) : ℚ)⟩
  else
    ⟨((jround (hue2rgb (hslP hsl) (hslQ hsl) (hsl.h / 360 + 1/3) * 255) : ℤ) : ℚ),
     ((jround (hue2rgb (hslP hsl) (hslQ hsl) (hsl.h / 360) * 255) : ℤ) : ℚ),
     ((jround (hue2rgb (hslP hsl) (hslQ hsl) (hsl.h / 360 - 1/3) * 255) : ℤ) : ℚ)⟩

/-! ## Relative luminance and contrast (`contrast.ts` lines 162–183) -/

/-- Per-channel sRGB-to-linear transfer used by `getRelativeLuminance`
(WCAG 2.1 breakpoint `0.03928`). -/
noncomputable def lumChannel (c : ℚ) : ℝ :=
  if c / 255 ≤ (0.03928 : ℚ) then ((c : ℝ) / 255) / 12.92
  else (((c : ℝ) / 255 + 0.055) / 1.055) ^ (2.4 : ℝ)

/-- `getRelativeLuminance` (`contrast.ts` lines 162–169). -/
noncomputable def getRelativeLuminance (rgb : RGB) : ℝ :=
  0.2126 * lumChannel rgb.r + 0.7152 * lumChannel rgb.g + 0.0722 * lumChannel rgb.b

/-- `getContrastRatio` (`contrast.ts` lines 175–183). -/
noncomputable def getContrastRatio (color1 color2 : RGB) : ℝ :=
  (max (getRelativeLuminance color1) (getRelativeLuminance color2) + 0.05) /
    (min (getRelativeLuminance color1) (getRelativeLuminance color2) + 0.05)

lemma lumChannel_nonneg (c : ℚ) (h0 : 0 ≤ c) : 0 ≤ lumChannel c := by
  unfold lumChannel
  split
  · positivity
  · apply Real.rpow_nonneg
    have : (0 : ℝ) ≤ (c : ℝ) := by exact_mod_cast h0
    positivity

lemma lumChannel_le_one (c : ℚ) (h0 : 0 ≤ c) (h1 : c ≤ 255) : lumChannel c ≤ 1 := by
  have hc0 : (0 : ℝ) ≤ (c : ℝ) := by exact_mod_cast h0
  have hc1 : (c : ℝ) ≤ 255 := by exact_mod_cast h1
  unfold lumChannel
  split
  · rename_i h
    have h' : (c : ℝ) / 255 ≤ 0.03928 := by
      have := (Rat.cast_le (K := ℝ)).mpr h
      push_cast at this
      linarith
    rw [div_le_one (by norm_num)]
    linarith
  · apply Real.rpow_le_one
    · positivity
    · rw [div_le_one (by norm_num)]
      have : (c : ℝ) / 255 ≤ 1 := by rw [div_le_one (by norm_num)]; linarith
      linarith
    · norm_num

lemma getRelativeLuminance_nonneg (c : RGB) (h : InRange c) :
    0 ≤ getRelativeLuminance c := by
  obtain ⟨h1, _, h3, _, h5, _⟩ := h
  have := lumChannel_nonneg c.r h1
  have := lumChannel_nonneg c.g h3
  have := lumChannel_nonneg c.b h5
  unfold getRelativeLuminance
  nlinarith

lemma getRelativeLuminance_le_one (c : RGB) (h : InRange c) :
    getRelativeLuminance c ≤ 1 := by
  obtain ⟨h1, h2, h3, h4, h5, h6⟩ := h
  have := lumChannel_le_one c.r h1 h2
  have := lumChannel_le_one c.g h3 h4
  have := lumChannel_le_one c.b h5 h6
  have := lumChannel_nonneg c.r h1
  have := lumChannel_nonneg c.g h3
  have := lumChannel_nonneg c.b h5
  unfold getRelativeLuminance
  nlinarith

lemma getContrastRatio_self (x : RGB) (h : 0 ≤ getRelativeLuminance x) :
    getContrastRatio x x = 1 := by
  unfold getContrastRatio
  simp only [max_self, min_self]
  exact div_self (by linarith)

/-- **C1.** `getContrastRatio` is symmetric in its two arguments, always lands
in `[1, 21]` on valid RGB colors, and a color contrasted with itself yields
exactly `1.0`. -/
theorem getContrastRatio_symm_range_self (a b x : RGB)
    (ha : InRange a) (hb : InRange b) (hx : InRange x) :
    getContrastRatio a b = getContrastRatio b a ∧
    1 ≤ getContrastRatio a b ∧ getContrastRatio a b ≤ 21 ∧
    getContrastRatio x x = 1 := by
  have la0 := getRelativeLuminance_nonneg a ha
  have lb0 := getRelativeLuminance_nonneg b hb
  have la1 := getRelativeLuminance_le_one a ha
  have lb1 := getRelativeLuminance_le_one b hb
  have hmin : (0 : ℝ) ≤ min (getRelativeLuminance a) (getRelativeLuminance b) :=
    le_min la0 lb0
  have hd : (0 : ℝ) < min (getRelativeLuminance a) (getRelativeLuminance b) + 0.05 := by
    linarith
  refine ⟨?_, ?_, ?_, getContrastRatio_self x (getRelativeLuminance_nonneg x hx)⟩
  · unfold getContrastRatio
    rw [max_comm, min_comm]
  · unfold getContrastRatio
    rw [le_div_iff₀ hd]
    have : min (getRelativeLuminance a) (getRelativeLuminance b) ≤
        max (getRelativeLuminance a) (getRelativeLuminance b) :=
      min_le_max
    linarith
  · unfold getContrastRatio
    rw [div_le_iff₀ hd]
    have hmax : max (getRelativeLuminance a) (getRelativeLuminance b) ≤ 1 :=
      max_le la1 lb1
    linarith

/-- Witness for C1 at concrete colors. -/
theorem getContrastRatio_symm_range_self_witness :
    InRange ⟨0, 0, 0⟩ ∧ InRange ⟨255, 255, 255⟩ ∧ InRange ⟨10, 20, 30⟩ ∧
    (getContrastRatio ⟨0, 0, 0⟩ ⟨255, 255, 255⟩ = getContrastRatio ⟨255, 255, 255⟩ ⟨0, 0, 0⟩ ∧
     1 ≤ getContrastRatio ⟨0, 0, 0⟩ ⟨255, 255, 255⟩ ∧
     getContrastRatio ⟨0, 0, 0⟩ ⟨255, 255, 255⟩ ≤ 21 ∧
     getContrastRatio ⟨10, 20, 30⟩ ⟨10, 20, 30⟩ = 1) :=
  ⟨by decide, by decide, by decide,
   getContrastRatio_symm_range_self _ _ _ (by decide) (by decide) (by decide)⟩

/-! ## Hex round-trip and format (claims C3, C4) -/

/-- `hexPair` applied to a two-character list (helper for stating the
per-channel round-trip). -/
def hexPair2 (l : List Char) : Option ℕ :=
  match l with
  | [a, b] => hexPair a b
  | _ => none

/-- A lowercase hexadecimal digit, the alphabet emitted by `toString(16)`. -/
def isLowerHexDigit (c : Char) : Bool := c.isDigit || ('a' ≤ c && c ≤ 'f')

/-- An uppercase hexadecimal digit. -/
def isUpperHexDigit (c : Char) : Bool := c.isDigit || ('A' ≤ c && c ≤ 'F')

lemma hexByteChars_length : ∀ n, n < 256 → (hexByteChars n).length = 2 := by decide

lemma hexByteChars_lower : ∀ n, n < 256 → (hexByteChars n).all isLowerHexDigit = true := by
  decide

lemma hexPair2_hexByteChars : ∀ n, n < 256 → hexPair2 (hexByteChars n) = some n := by decide

lemma jround_natCast (n : ℕ) : jround (n : ℚ) = (n : ℤ) := by
  unfold jround
  rw [Int.floor_eq_iff]
  constructor
  · push_cast; linarith
  · push_cast; linarith

lemma clampRound_natCast (n : ℕ) (h : n ≤ 255) : clampRound (n : ℚ) = (n : ℤ) := by
  unfold clampRound
  rw [jround_natCast, min_eq_right (by exact_mod_cast h), max_eq_right (by positivity)]

lemma rgbToHex_natCast (r g b : ℕ) (hr : r ≤ 255) (hg : g ≤ 255) (hb : b ≤ 255) :
    rgbToHex ⟨(r : ℚ), (g : ℚ), (b : ℚ)⟩ =
      String.mk ('#' :: (hexByteChars r ++ hexByteChars g ++ hexByteChars b)) := by
  have cr : (clampRound ((r : ℕ) : ℚ)).toNat = r := by
    rw [clampRound_natCast r hr, Int.toNat_natCast]
  have cg : (clampRound ((g : ℕ) : ℚ)).toNat = g := by
    rw [clampRound_natCast g hg, Int.toNat_natCast]
  have cb : (clampRound ((b : ℕ) : ℚ)).toNat = b := by
    rw [clampRound_natCast b hb, Int.toNat_natCast]
  unfold rgbToHex
  rw [show (RGB.mk (r : ℚ) (g : ℚ) (b : ℚ)).r = ((r : ℕ) : ℚ) from rfl,
    show (RGB.mk (r : ℚ) (g : ℚ) (b : ℚ)).g = ((g : ℕ) : ℚ) from rfl,
    show (RGB.mk (r : ℚ) (g : ℚ) (b : ℚ)).b = ((b : ℕ) : ℚ) from rfl, cr, cg, cb]

/-- **C3.** Parsing the output of `rgbToHex` restores the input exactly, for
every integer-valued RGB color with channels in `[0, 255]`. -/
theorem hexToRgb_rgbToHex (r g b : ℕ) (hr : r ≤ 255) (hg : g ≤ 255) (hb : b ≤ 255) :
    hexToRgb (rgbToHex ⟨(r : ℚ), (g : ℚ), (b : ℚ)⟩) = some ⟨(r : ℚ), (g : ℚ), (b : ℚ)⟩ := by
  have hx := rgbToHex_natCast r g b hr hg hb
  obtain ⟨a1, a2, ha⟩ := List.length_eq_two.mp (hexByteChars_length r (by omega))
  obtain ⟨b1, b2, hb2⟩ := List.length_eq_two.mp (hexByteChars_length g (by omega))
  obtain ⟨c1, c2, hc⟩ := List.length_eq_two.mp (hexByteChars_length b (by omega))
  have pr : hexPair a1 a2 = some r := by
    have := hexPair2_hexByteChars r (by omega); rwa [ha] at this
  have pg : hexPair b1 b2 = some g := by
    have := hexPair2_hexByteChars g (by omega); rwa [hb2] at this
  have pb : hexPair c1 c2 = some b := by
    have := hexPair2_hexByteChars b (by omega); rwa [hc] at this
  rw [hx]
  unfold hexToRgb
  rw [show (String.mk ('#' :: (hexByteChars r ++ hexByteChars g ++ hexByteChars b))).toList
      = '#' :: (hexByteChars r ++ hexByteChars g ++ hexByteChars b) from rfl]
  rw [show hexSanitize ('#' :: (hexByteChars r ++ hexByteChars g ++ hexByteChars b))
      = hexByteChars r ++ hexByteChars g ++ hexByteChars b from rfl]
  rw [ha, hb2, hc]
  simp [hexExpand, hexParse6, pr, pg, pb]

/-- Witness for C3 at a concrete color. -/
theorem hexToRgb_rgbToHex_witness :
    (17 ≤ 255 ∧ 103 ≤ 255 ∧ 255 ≤ 255) ∧
    hexToRgb (rgbToHex ⟨((17 : ℕ) : ℚ), ((103 : ℕ) : ℚ), ((255 : ℕ) : ℚ)⟩) =
      some ⟨((17 : ℕ) : ℚ), ((103 : ℕ) : ℚ), ((255 : ℕ) : ℚ)⟩ :=
  ⟨by omega, hexToRgb_rgbToHex 17 103 255 (by omega) (by omega) (by omega)⟩

/-- Counterexample for C4 as stated: `rgbToHex` renders pure red as
`"#ff0000"`, whose digit characters are lowercase, not uppercase. -/
theorem rgbToHex_not_uppercase :
    rgbToHex ⟨255, 0, 0⟩ = "#ff0000" ∧
    ((rgbToHex ⟨255, 0, 0⟩).toList.drop 1).all isUpperHexDigit = false := by
  have h : rgbToHex ⟨255, 0, 0⟩ =
      String.mk ('#' :: (hexByteChars 255 ++ hexByteChars 0 ++ hexByteChars 0)) := by
    have := rgbToHex_natCast 255 0 0 (by omega) (by omega) (by omega)
    simpa using this
  rw [h]
  constructor
  · decide
  · decide

/-- **C4 (amended: the hex digits are lowercase, not uppercase).**
`rgbToHex` rounds each channel, clamps it into `[0, 255]`, and returns a
7-character string: `#` followed by three two-digit lowercase hex bytes. -/
theorem rgbToHex_format (rgb : RGB) :
    (rgbToHex rgb).length = 7 ∧
    (rgbToHex rgb).toList.head? = some '#' ∧
    ((rgbToHex rgb).toList.drop 1).all isLowerHexDigit = true ∧
    (0 ≤ clampRound rgb.r ∧ clampRound rgb.r ≤ 255) ∧
    (0 ≤ clampRound rgb.g ∧ clampRound rgb.g ≤ 255) ∧
    (0 ≤ clampRound rgb.b ∧ clampRound rgb.b ≤ 255) := by
  have bnd : ∀ c : ℚ, 0 ≤ clampRound c ∧ clampRound c ≤ 255 := fun c =>
    ⟨le_max_left _ _, max_le (by norm_num) (min_le_left _ _)⟩
  have sz : ∀ c : ℚ, (clampRound c).toNat < 256 := by
    intro c
    have h := bnd c
    omega
  have lr := hexByteChars_length _ (sz rgb.r)
  have lg := hexByteChars_length _ (sz rgb.g)
  have lb := hexByteChars_length _ (sz rgb.b)
  have ar := hexByteChars_lower _ (sz rgb.r)
  have ag := hexByteChars_lower _ (sz rgb.g)
  have ab := hexByteChars_lower _ (sz rgb.b)
  refine ⟨?_, ?_, ?_, bnd _, bnd _, bnd _⟩
  · show (String.mk _).length = 7
    simp only [String.length, String.mk, List.length_cons, List.length_append]
    omega
  · rfl
  · show (List.drop 1 ('#' :: _)).all _ = true
    simp only [List.drop_succ_cons, List.drop_zero, List.all_append]
    rw [ar, ag, ab]
    rfl

/-! ## WCAG thresholds and compliance (`contrast.ts` lines 34–40, 195–205) -/

/-- Field holder for `WCAG_THRESHOLDS`. -/
structure WCAGThresholds where
  normalTextAAA : ℝ
  normalTextAA : ℝ
  largeTextAAA : ℝ
  largeTextAA : ℝ
  uiComponents : ℝ

/-- `WCAG_THRESHOLDS` constant (`contrast.ts` lines 34–40). -/
noncomputable def WCAG_THRESHOLDS : WCAGThresholds :=
  { normalTextAAA := 7
    normalTextAA := 4.5
    largeTextAAA := 4.5
    largeTextAA := 3
    uiComponents := 3 }

/-- `ContrastResult` (`contrast.ts` lines 18–26); the JavaScript booleans
`ratio >= threshold` are modelled as propositions. -/
structure ContrastResult where
  ratio : ℝ
  ratioString : String
  normalTextAA : Prop
  normalTextAAA : Prop
  largeTextAA : Prop
  largeTextAAA : Prop
  uiComponents : Prop

/-- `formatContrastRatio` (`contrast.ts` lines 188–190): `toFixed(2)` then
`:1`; modelled for the nonnegative ratios this engine produces. -/
noncomputable def formatContrastRatio (ratio : ℝ) : String :=
  toString (jroundR (ratio * 100) / 100) ++ "." ++
    (if (jroundR (ratio * 100) % 100).toNat < 10 then "0" else "") ++
    toString (jroundR (ratio * 100) % 100).toNat ++ ":1"

/-- `checkWCAGCompliance` (`contrast.ts` lines 195–205). -/
noncomputable def checkWCAGCompliance (ratio : ℝ) : ContrastResult :=
  { ratio := ratio
    ratioString := formatContrastRatio ratio
    normalTextAA := WCAG_THRESHOLDS.normalTextAA ≤ ratio
    normalTextAAA := WCAG_THRESHOLDS.normalTextAAA ≤ ratio
    largeTextAA := WCAG_THRESHOLDS.largeTextAA ≤ ratio
    largeTextAAA := WCAG_THRESHOLDS.largeTextAAA ≤ ratio
    uiComponents := WCAG_THRESHOLDS.uiComponents ≤ ratio }

/-! ## Palette matrix (`palette.ts` lines 8–70) -/

/-- `PaletteColor` (`palette.ts` lines 8–12). -/
structure PaletteColor where
  id : String
  name : String
  hex : String
deriving DecidableEq

/-- `ContrastMatrixCell` (`palette.ts` lines 21–26). -/
structure ContrastMatrixCell where
  foregroundId : String
  backgroundId : String
  ratio : ℝ
  compliance : ContrastResult

/-- `calculatePairContrast` (`palette.ts` lines 38–47): parse both hex
strings; if either fails, return `1`. -/
noncomputable def calculatePairContrast (foreground background : PaletteColor) : ℝ :=
  match hexToRgb foreground.hex, hexToRgb background.hex with
  | some fgRgb, some bgRgb => getContrastRatio fgRgb bgRgb
  | _, _ => 1

/-- One cell of the contrast matrix, as pushed by the inner loop of
`generateContrastMatrix` (`palette.ts` lines 58–64). -/
noncomputable def contrastCell (fgColor bgColor : PaletteColor) : ContrastMatrixCell :=
  { foregroundId := fgColor.id
    backgroundId := bgColor.id
    ratio := calculatePairContrast fgColor bgColor
    compliance := checkWCAGCompliance (calculatePairContrast fgColor bgColor) }

/-- `generateContrastMatrix` (`palette.ts` lines 52–70): outer loop over
backgrounds (rows), inner loop over foregrounds (columns). -/
noncomputable def generateContrastMatrix (colors : List PaletteColor) :
    List (List ContrastMatrixCell) :=
  colors.map fun bgColor => colors.map fun fgColor => contrastCell fgColor bgColor

lemma hexDigitVal_le (c : Char) (n : ℕ) (h : hexDigitVal c = some n) : n ≤ 15 := by
  unfold hexDigitVal at h
  split_ifs at h <;> simp only [Option.some.injEq] at h <;> omega

lemma hexPair_le (c1 c2 : Char) (n : ℕ) (h : hexPair c1 c2 = some n) : n ≤ 255 := by
  unfold hexPair at h
  obtain ⟨a, h1, h⟩ := Option.bind_eq_some.mp h
  obtain ⟨b, h2, h⟩ := Option.bind_eq_some.mp h
  have ha := hexDigitVal_le _ _ h1
  have hb := hexDigitVal_le _ _ h2
  simp only [Option.some.injEq] at h
  omega

lemma hexToRgb_InRange (s : String) (c : RGB) (h : hexToRgb s = some c) : InRange c := by
  unfold hexToRgb hexParse6 at h
  split at h
  · obtain ⟨r, hr, h⟩ := Option.bind_eq_some.mp h
    obtain ⟨g, hg, h⟩ := Option.bind_eq_some.mp h
    obtain ⟨b, hb, h⟩ := Option.bind_eq_some.mp h
    simp only [Option.some.injEq] at h
    subst h
    have h1 := hexPair_le _ _ _ hr
    have h2 := hexPair_le _ _ _ hg
    have h3 := hexPair_le _ _ _ hb
    unfold InRange
    dsimp only
    exact ⟨by positivity, by exact_mod_cast h1, by positivity,
      by exact_mod_cast h2, by positivity, by exact_mod_cast h3⟩
  · simp at h

lemma calculatePairContrast_self (c : PaletteColor) : calculatePairContrast c c = 1 := by
  unfold calculatePairContrast
  cases h : hexToRgb c.hex with
  | none => rfl
  | some rgb =>
    exact getContrastRatio_self rgb
      (getRelativeLuminance_nonneg rgb (hexToRgb_InRange c.hex rgb h))

/-- **C5.** The contrast matrix over an ordered palette is square
(`N × N`), cell `(i, j)` has the `i`-th color as background and the `j`-th
color as foreground, and every diagonal cell has ratio exactly `1.0`. -/
theorem generateContrastMatrix_spec (colors : List PaletteColor) (i j : ℕ)
    (hi : i < colors.length) (hj : j < colors.length) :
    (generateContrastMatrix colors).length = colors.length ∧
    ∃ row cell,
      (generateContrastMatrix colors)[i]? = some row ∧
      row.length = colors.length ∧
      row[j]? = some cell ∧
      cell.backgroundId = (colors.get ⟨i, hi⟩).id ∧
      cell.foregroundId = (colors.get ⟨j, hj⟩).id ∧
      (i = j → cell.ratio = 1) := by
  refine ⟨by simp [generateContrastMatrix],
    colors.map (fun fgColor => contrastCell fgColor (colors.get ⟨i, hi⟩)),
    contrastCell (colors.get ⟨j, hj⟩) (colors.get ⟨i, hi⟩), ?_, by simp, ?_, rfl, rfl, ?_⟩
  · unfold generateContrastMatrix
    rw [List.getElem?_map, List.getElem?_eq_getElem hi]
    rfl
  · rw [List.getElem?_map, List.getElem?_eq_getElem hj]
    rfl
  · intro hij
    subst hij
    have : colors.get ⟨i, hj⟩ = colors.get ⟨i, hi⟩ := rfl
    rw [this]
    exact calculatePairContrast_self _

/-- Concrete two-color palette used by witnesses. -/
def pal2 : List PaletteColor := [⟨"a", "A", "#000000"⟩, ⟨"b", "B", "#ffffff"⟩]

/-- Witness for C5 on a concrete two-color palette. -/
theorem generateContrastMatrix_spec_witness :
    (0 < pal2.length ∧ 1 < pal2.length) ∧
    ((generateContrastMatrix pal2).length = pal2.length ∧
      ∃ row cell,
        (generateContrastMatrix pal2)[0]? = some row ∧
        row.length = pal2.length ∧
        row[1]? = some cell ∧
        cell.backgroundId = (pal2.get ⟨0, by decide⟩).id ∧
        cell.foregroundId = (pal2.get ⟨1, by decide⟩).id ∧
        (0 = 1 → cell.ratio = 1)) :=
  ⟨⟨by decide, by decide⟩, generateContrastMatrix_spec pal2 0 1 (by decide) (by decide)⟩

/-- **C10.** If either color's hex fails to parse, `calculatePairContrast`
returns ratio `1` (no failure), and the compliance classification of that
ratio has every flag false. -/
theorem calculatePairContrast_unparsable (fg bg : PaletteColor)
    (h : hexToRgb fg.hex = none ∨ hexToRgb bg.hex = none) :
    calculatePairContrast fg bg = 1 ∧
    ¬(checkWCAGCompliance (calculatePairContrast fg bg)).normalTextAA ∧
    ¬(checkWCAGCompliance (calculatePairContrast fg bg)).normalTextAAA ∧
    ¬(checkWCAGCompliance (calculatePairContrast fg bg)).largeTextAA ∧
    ¬(checkWCAGCompliance (calculatePairContrast fg bg)).largeTextAAA ∧
    ¬(checkWCAGCompliance (calculatePairContrast fg bg)).uiComponents := by
  have h1 : calculatePairContrast fg bg = 1 := by
    unfold calculatePairContrast
    rcases h with h | h
    · rw [h]
    · rw [h]
      cases hexToRgb fg.hex <;> rfl
  rw [h1]
  refine ⟨rfl, ?_, ?_, ?_, ?_, ?_⟩ <;>
    simp only [checkWCAGCompliance, WCAG_THRESHOLDS] <;> norm_num

/-- Witness for C10: a palette color with unparsable hex `"zz"`. -/
theorem calculatePairContrast_unparsable_witness :
    (hexToRgb (PaletteColor.mk "f" "bad" "zz").hex = none ∨
      hexToRgb (PaletteColor.mk "b" "ok" "#000000").hex = none) ∧
    (calculatePairContrast ⟨"f", "bad", "zz"⟩ ⟨"b", "ok", "#000000"⟩ = 1 ∧
      ¬(checkWCAGCompliance (calculatePairContrast ⟨"f", "bad", "zz"⟩ ⟨"b", "ok", "#000000"⟩)).normalTextAA ∧
      ¬(checkWCAGCompliance (calculatePairContrast ⟨"f", "bad", "zz"⟩ ⟨"b", "ok", "#000000"⟩)).normalTextAAA ∧
      ¬(checkWCAGCompliance (calculatePairContrast ⟨"f", "bad", "zz"⟩ ⟨"b", "ok", "#000000"⟩)).largeTextAA ∧
      ¬(checkWCAGCompliance (calculatePairContrast ⟨"f", "bad", "zz"⟩ ⟨"b", "ok", "#000000"⟩)).largeTextAAA ∧
      ¬(checkWCAGCompliance (calculatePairContrast ⟨"f", "bad", "zz"⟩ ⟨"b", "ok", "#000000"⟩)).uiComponents) :=
  ⟨Or.inl (by decide), calculatePairContrast_unparsable _ _ (Or.inl (by decide))⟩

/-! ## Accessible-alternative search (`contrast.ts` lines 237–276, claim C2)

`findPassingColor` is factored into the `tryLightness` closure (`fpcTry`),
the per-step target lightness of the primary scan (`fpcPrimary`) and of the
opposite scan (`fpcSecondary`); the two `for` loops with early `return`
are `List.findSome?` over the 101 offsets `0, 1, …, 100`. -/

/-- `tryLightness` closure inside `findPassingColor`: clamp the candidate
lightness to `[0, 100]`, convert back to RGB holding hue and saturation,
and return the candidate only when it meets the target ratio. -/
noncomputable def fpcTry (colorToAdjust referenceColor : RGB) (targetRatio : ℝ)
    (targetL : ℚ) : Option RGB :=
  if targetRatio ≤ getContrastRatio
      (hslToRgb ⟨(rgbToHsl colorToAdjust).h, (rgbToHsl colorToAdjust).s,
        max 0 (min 100 targetL)⟩) referenceColor
  then some (hslToRgb ⟨(rgbToHsl colorToAdjust).h, (rgbToHsl colorToAdjust).s,
    max 0 (min 100 targetL)⟩)
  else none

/-- Target lightness of step `i` of the primary scan:
`goLighter ? Math.min(100, hsl.l + i) : Math.max(0, hsl.l - i)` where
`goLighter = refLuminance < 0.5`. -/
noncomputable def fpcPrimary (colorToAdjust referenceColor : RGB) (i : ℕ) : ℚ :=
  if getRelativeLuminance referenceColor < 0.5 then
    min 100 ((rgbToHsl colorToAdjust).l + i)
  else max 0 ((rgbToHsl colorToAdjust).l - i)

/-- Target lightness of step `i` of the opposite scan. -/
noncomputable def fpcSecondary (colorToAdjust referenceColor : RGB) (i : ℕ) : ℚ :=
  if getRelativeLuminance referenceColor < 0.5 then
    max 0 ((rgbToHsl colorToAdjust).l - i)
  else min 100 ((rgbToHsl colorToAdjust).l + i)

/-- `findPassingColor` (`contrast.ts` lines 237–276); the source's default
`targetRatio` is `WCAG_THRESHOLDS.normalTextAA = 4.5`. -/
noncomputable def findPassingColor (colorToAdjust referenceColor : RGB)
    (targetRatio : ℝ) : Option RGB :=
  match (List.range 101).findSome?
      (fun i => fpcTry colorToAdjust referenceColor targetRatio
        (fpcPrimary colorToAdjust referenceColor i)) with
  | some result => some result
  | none =>
      (List.range 101).findSome?
        (fun i => fpcTry colorToAdjust referenceColor targetRatio
          (fpcSecondary colorToAdjust referenceColor i))

lemma findSome?_eq_none_iff {α β : Type} (f : α → Option β) :
    ∀ l : List α, l.findSome? f = none ↔ ∀ a ∈ l, f a = none := by
  intro l
  induction l with
  | nil => simp [List.findSome?]
  | cons a l ih =>
    cases ha : f a with
    | none => simp [List.findSome?, ha, ih]
    | some b => simp [List.findSome?, ha]

lemma findSome?_eq_some_first {α β : Type} (f : α → Option β) :
    ∀ (l : List α) (b : β), l.findSome? f = some b →
      ∃ l1 a l2, l = l1 ++ a :: l2 ∧ f a = some b ∧ ∀ x ∈ l1, f x = none := by
  intro l
  induction l with
  | nil => intro b h; simp [List.findSome?] at h
  | cons a l ih =>
    intro b h
    cases ha : f a with
    | some c =>
      have hc : c = b := by
        unfold List.findSome? at h
        rw [ha] at h
        exact Option.some.inj h
      subst hc
      exact ⟨[], a, l, rfl, ha, by simp⟩
    | none =>
      have h' : l.findSome? f = some b := by
        unfold List.findSome? at h
        rwa [ha] at h
      obtain ⟨l1, x, l2, rfl, hx, hnone⟩ := ih b h'
      refine ⟨a :: l1, x, l2, rfl, hx, ?_⟩
      intro y hy
      rcases List.mem_cons.mp hy with rfl | hy
      · exact ha
      · exact hnone y hy

lemma findSome?_range_first {β : Type} (f : ℕ → Option β) (n : ℕ) (b : β)
    (h : (List.range n).findSome? f = some b) :
    ∃ j, j < n ∧ f j = some b ∧ ∀ k, k < j → f k = none := by
  obtain ⟨l1, a, l2, heq, ha, hnone⟩ := findSome?_eq_some_first f _ b h
  have hlen : l1.length < n := by
    have := congrArg List.length heq
    simp at this
    omega
  have hja : a = l1.length := by
    have h1 : (List.range n)[l1.length]? = some l1.length := List.getElem?_range hlen
    rw [heq, List.getElem?_append_right (le_refl l1.length)] at h1
    simp only [Nat.sub_self, List.getElem?_cons_zero, Option.some.injEq] at h1
    exact h1
  refine ⟨l1.length, hlen, by rw [← hja]; exact ha, ?_⟩
  intro k hk
  have hkn : k < n := lt_trans hk hlen
  have h1 : (List.range n)[k]? = some k := List.getElem?_range hkn
  rw [heq] at h1
  rw [List.getElem?_append, if_pos hk] at h1
  exact hnone k (List.getElem?_mem h1)

lemma fpcTry_eq_some (colorToAdjust referenceColor : RGB) (targetRatio : ℝ)
    (targetL : ℚ) (r : RGB)
    (h : fpcTry colorToAdjust referenceColor targetRatio targetL = some r) :
    targetRatio ≤ getContrastRatio r referenceColor ∧
    r = hslToRgb ⟨(rgbToHsl colorToAdjust).h, (rgbToHsl colorToAdjust).s,
      max 0 (min 100 targetL)⟩ := by
  unfold fpcTry at h
  split_ifs at h with hc
  cases Option.some.inj h
  exact ⟨hc, rfl⟩

/-- **C2.** `findPassingColor` scans 101 clamped lightness offsets per
direction, trying the lighter direction first exactly when the reference
luminance is below `0.5`; it returns the first passing step of the primary
scan, falls back to the opposite scan only when the primary scan fails
throughout, returns `none` exactly when no step of either scan passes, and
every returned color passes the target ratio and preserves the input's hue
and saturation with a clamped lightness. -/
theorem findPassingColor_spec (colorToAdjust referenceColor : RGB) (targetRatio : ℝ) :
    (∀ r, findPassingColor colorToAdjust referenceColor targetRatio = some r →
        targetRatio ≤ getContrastRatio r referenceColor ∧
        ∃ l0, 0 ≤ l0 ∧ l0 ≤ 100 ∧
          r = hslToRgb ⟨(rgbToHsl colorToAdjust).h, (rgbToHsl colorToAdjust).s, l0⟩) ∧
    (findPassingColor colorToAdjust referenceColor targetRatio = none ↔
      ∀ i, i < 101 →
        fpcTry colorToAdjust referenceColor targetRatio
          (fpcPrimary colorToAdjust referenceColor i) = none ∧
        fpcTry colorToAdjust referenceColor targetRatio
          (fpcSecondary colorToAdjust referenceColor i) = none) ∧
    (∀ i, i < 101 →
      fpcTry colorToAdjust referenceColor targetRatio
        (fpcPrimary colorToAdjust referenceColor i) ≠ none →
      ∃ j, j ≤ i ∧
        (∀ k, k < j → fpcTry colorToAdjust referenceColor targetRatio
          (fpcPrimary colorToAdjust referenceColor k) = none) ∧
        findPassingColor colorToAdjust referenceColor targetRatio =
          fpcTry colorToAdjust referenceColor targetRatio
            (fpcPrimary colorToAdjust referenceColor j)) ∧
    (getRelativeLuminance referenceColor < 0.5 →
      ∀ i : ℕ,
        fpcPrimary colorToAdjust referenceColor i =
          min 100 ((rgbToHsl colorToAdjust).l + i) ∧
        fpcSecondary colorToAdjust referenceColor i =
          max 0 ((rgbToHsl colorToAdjust).l - i)) ∧
    (0.5 ≤ getRelativeLuminance referenceColor →
      ∀ i : ℕ,
        fpcPrimary colorToAdjust referenceColor i =
          max 0 ((rgbToHsl colorToAdjust).l - i) ∧
        fpcSecondary colorToAdjust referenceColor i =
          min 100 ((rgbToHsl colorToAdjust).l + i)) := by
  have clampLo : ∀ L : ℚ, (0 : ℚ) ≤ max 0 (min 100 L) := fun L => le_max_left _ _
  have clampHi : ∀ L : ℚ, max 0 (min 100 L) ≤ 100 := fun L =>
    max_le (by norm_num) (min_le_left _ _)
  refine ⟨?_, ?_, ?_, ?_, ?_⟩
  · intro r hr
    unfold findPassingColor at hr
    cases h1 : (List.range 101).findSome?
        (fun i => fpcTry colorToAdjust referenceColor targetRatio
          (fpcPrimary colorToAdjust referenceColor i)) with
    | some v =>
      rw [h1] at hr
      have hv : v = r := Option.some.inj hr
      subst hv
      obtain ⟨j, _, hfj, _⟩ := findSome?_range_first _ _ _ h1
      obtain ⟨hc, heq⟩ := fpcTry_eq_some _ _ _ _ _ hfj
      exact ⟨hc, _, clampLo _, clampHi _, heq⟩
    | none =>
      rw [h1] at hr
      obtain ⟨j, _, hfj, _⟩ := findSome?_range_first _ _ _ hr
      obtain ⟨hc, heq⟩ := fpcTry_eq_some _ _ _ _ _ hfj
      exact ⟨hc, _, clampLo _, clampHi _, heq⟩
  · unfold findPassingColor
    cases h1 : (List.range 101).findSome?
        (fun i => fpcTry colorToAdjust referenceColor targetRatio
          (fpcPrimary colorToAdjust referenceColor i)) with
    | some v =>
      simp only
      constructor
      · intro h; exact absurd h (by simp)
      · intro hall
        obtain ⟨j, hj, hfj, _⟩ := findSome?_range_first _ _ _ h1
        rw [(hall j hj).1] at hfj
        exact absurd hfj (by simp)
    | none =>
      simp only
      rw [findSome?_eq_none_iff]
      have hprim := (findSome?_eq_none_iff _ (List.range 101)).mp h1
      constructor
      · intro hsec i hi
        exact ⟨hprim i (List.mem_range.mpr hi), hsec i (List.mem_range.mpr hi)⟩
      · intro hall a ha
        exact (hall a (List.mem_range.mp ha)).2
  · intro i hi hne
    cases h1 : (List.range 101).findSome?
        (fun i => fpcTry colorToAdjust referenceColor targetRatio
          (fpcPrimary colorToAdjust referenceColor i)) with
    | none =>
      have := (findSome?_eq_none_iff _ (List.range 101)).mp h1 i (List.mem_range.mpr hi)
      exact absurd this hne
    | some v =>
      obtain ⟨j, hj, hfj, hfirst⟩ := findSome?_range_first _ _ _ h1
      refine ⟨j, ?_, hfirst, ?_⟩
      · by_contra hij
        exact hne (hfirst i (by omega))
      · unfold findPassingColor
        rw [h1, hfj]
  · intro hlum i
    unfold fpcPrimary fpcSecondary
    rw [if_pos hlum, if_pos hlum]
    exact ⟨rfl, rfl⟩
  · intro hlum i
    unfold fpcPrimary fpcSecondary
    rw [if_neg (not_lt.mpr hlum), if_neg (not_lt.mpr hlum)]
    exact ⟨rfl, rfl⟩

/-- Witness for C2: the specification instantiated at a concrete query. -/
theorem findPassingColor_spec_witness :
    (∀ r, findPassingColor ⟨200, 200, 200⟩ ⟨255, 255, 255⟩ (4.5 : ℝ) = some r →
        (4.5 : ℝ) ≤ getContrastRatio r ⟨255, 255, 255⟩ ∧
        ∃ l0, 0 ≤ l0 ∧ l0 ≤ 100 ∧
          r = hslToRgb ⟨(rgbToHsl ⟨200, 200, 200⟩).h, (rgbToHsl ⟨200, 200, 200⟩).s, l0⟩) ∧
    (findPassingColor ⟨200, 200, 200⟩ ⟨255, 255, 255⟩ (4.5 : ℝ) = none ↔
      ∀ i, i < 101 →
        fpcTry ⟨200, 200, 200⟩ ⟨255, 255, 255⟩ (4.5 : ℝ)
          (fpcPrimary ⟨200, 200, 200⟩ ⟨255, 255, 255⟩ i) = none ∧
        fpcTry ⟨200, 200, 200⟩ ⟨255, 255, 255⟩ (4.5 : ℝ)
          (fpcSecondary ⟨200, 200, 200⟩ ⟨255, 255, 255⟩ i) = none) ∧
    (∀ i, i < 101 →
      fpcTry ⟨200, 200, 200⟩ ⟨255, 255, 255⟩ (4.5 : ℝ)
        (fpcPrimary ⟨200, 200, 200⟩ ⟨255, 255, 255⟩ i) ≠ none →
      ∃ j, j ≤ i ∧
        (∀ k, k < j → fpcTry ⟨200, 200, 200⟩ ⟨255, 255, 255⟩ (4.5 : ℝ)
          (fpcPrimary ⟨200, 200, 200⟩ ⟨255, 255, 255⟩ k) = none) ∧
        findPassingColor ⟨200, 200, 200⟩ ⟨255, 255, 255⟩ (4.5 : ℝ) =
          fpcTry ⟨200, 200, 200⟩ ⟨255, 255, 255⟩ (4.5 : ℝ)
            (fpcPrimary ⟨200, 200, 200⟩ ⟨255, 255, 255⟩ j)) ∧
    (getRelativeLuminance ⟨255, 255, 255⟩ < 0.5 →
      ∀ i : ℕ,
        fpcPrimary ⟨200, 200, 200⟩ ⟨255, 255, 255⟩ i =
          min 100 ((rgbToHsl ⟨200, 200, 200⟩).l + i) ∧
        fpcSecondary ⟨200, 200, 200⟩ ⟨255, 255, 255⟩ i =
          max 0 ((rgbToHsl ⟨200, 200, 200⟩).l - i)) ∧
    (0.5 ≤ getRelativeLuminance ⟨255, 255, 255⟩ →
      ∀ i : ℕ,
        fpcPrimary ⟨200, 200, 200⟩ ⟨255, 255, 255⟩ i =
          max 0 ((rgbToHsl ⟨200, 200, 200⟩).l - i) ∧
        fpcSecondary ⟨200, 200, 200⟩ ⟨255, 255, 255⟩ i =
          min 100 ((rgbToHsl ⟨200, 200, 200⟩).l + i)) :=
  findPassingColor_spec ⟨200, 200, 200⟩ ⟨255, 255, 255⟩ (4.5 : ℝ)

/-! ## CVD simulation (`color-blindness.ts`, claim C6) -/

/-- `CVDType` (`color-blindness.ts` lines 8–13). -/
inductive CVDType where
  | protanopia
  | deuteranopia
  | tritanopia
  | achromatopsia
  | none
deriving DecidableEq

/-- `GRAYSCALE_WEIGHTS` (`color-blindness.ts` line 74). -/
noncomputable def GRAYSCALE_WEIGHTS : List ℝ := [0.2126, 0.7152, 0.0722]

/-- `CVD_MATRICES` (`color-blindness.ts` lines 53–69); the source record has
no entry for `none` or `achromatopsia`, so those return `[]` here and are
never consulted by `simulateCVD`. -/
noncomputable def CVD_MATRICES : CVDType → List (List ℝ)
  | CVDType.protanopia =>
      [[0.567, 0.433, 0], [0.558, 0.442, 0], [0, 0.242, 0.758]]
  | CVDType.deuteranopia =>
      [[0.625, 0.375, 0], [0.700, 0.300, 0], [0, 0.300, 0.700]]
  | CVDType.tritanopia =>
      [[0.950, 0.050, 0], [0, 0.433, 0.567], [0, 0.475, 0.525]]
  | _ => []

/-- `matrix[i][j]` access. -/
noncomputable def mEntry (m : List (List ℝ)) (i j : ℕ) : ℝ := (m.getD i []).getD j 0

/-- `applyMatrix` (`color-blindness.ts` lines 95–101). -/
noncomputable def applyMatrix (rgb : ℝ × ℝ × ℝ) (m : List (List ℝ)) : ℝ × ℝ × ℝ :=
  (rgb.1 * mEntry m 0 0 + rgb.2.1 * mEntry m 0 1 + rgb.2.2 * mEntry m 0 2,
   rgb.1 * mEntry m 1 0 + rgb.2.1 * mEntry m 1 1 + rgb.2.2 * mEntry m 1 2,
   rgb.1 * mEntry m 2 0 + rgb.2.1 * mEntry m 2 1 + rgb.2.2 * mEntry m 2 2)

/-- `srgbToLinear` (`color-blindness.ts` lines 79–82): breakpoint `0.04045`,
distinct from the WCAG luminance breakpoint `0.03928`. -/
noncomputable def srgbToLinear (value : ℚ) : ℝ :=
  if value / 255 ≤ (0.04045 : ℚ) then ((value : ℝ) / 255) / 12.92
  else (((value : ℝ) / 255 + 0.055) / 1.055) ^ (2.4 : ℝ)

/-- `linearToSrgb` (`color-blindness.ts` lines 87–90): inverse transfer,
then `Math.round(Math.max(0, Math.min(255, v * 255)))`. -/
noncomputable def linearToSrgb (value : ℝ) : ℤ :=
  jroundR (max 0 (min 255
    ((if value ≤ 0.0031308 then value * 12.92
      else 1.055 * value ^ ((1 : ℝ) / 2.4) - 0.055) * 255)))

/-- Two uppercase hex digits: `toString(16).padStart(2, '0')` followed by the
final `.toUpperCase()` of `simulateCVD`. -/
def upperHexByteChars (n : ℕ) : List Char := (hexByteChars n).map Char.toUpper

/-- The parse in `simulateCVD` (`color-blindness.ts` lines 110–113):
`hex.replace('#', '')` (first occurrence), then `parseInt` on the three
two-character slices.  A failed parse (`NaN` in the source, which then
propagates to a nonsense output string) is modelled as `none`. -/
def simParse (hex : String) : Option (ℕ × ℕ × ℕ) :=
  match (hex.toList).erase '#' with
  | c1 :: c2 :: c3 :: c4 :: c5 :: c6 :: _ =>
      (hexPair c1 c2).bind fun r =>
        (hexPair c3 c4).bind fun g =>
          (hexPair c5 c6).bind fun b => some (r, g, b)
  | _ => none

/-- `simulateCVD` (`color-blindness.ts` lines 106–143). -/
noncomputable def simulateCVD (hex : String) (cvdType : CVDType) : Option String :=
  if cvdType = CVDType.none then some hex
  else
    match simParse hex with
    | Option.none => Option.none
    | some (r, g, b) =>
        let linearRgb : ℝ × ℝ × ℝ :=
          (srgbToLinear (r : ℚ), srgbToLinear (g : ℚ), srgbToLinear (b : ℚ))
        let simulatedLinear : ℝ × ℝ × ℝ :=
          if cvdType = CVDType.achromatopsia then
            (linearRgb.1 * GRAYSCALE_WEIGHTS.getD 0 0 +
               linearRgb.2.1 * GRAYSCALE_WEIGHTS.getD 1 0 +
               linearRgb.2.2 * GRAYSCALE_WEIGHTS.getD 2 0,
             linearRgb.1 * GRAYSCALE_WEIGHTS.getD 0 0 +
               linearRgb.2.1 * GRAYSCALE_WEIGHTS.getD 1 0 +
               linearRgb.2.2 * GRAYSCALE_WEIGHTS.getD 2 0,
             linearRgb.1 * GRAYSCALE_WEIGHTS.getD 0 0 +
               linearRgb.2.1 * GRAYSCALE_WEIGHTS.getD 1 0 +
               linearRgb.2.2 * GRAYSCALE_WEIGHTS.getD 2 0)
          else applyMatrix linearRgb (CVD_MATRICES cvdType)
        some (String.mk ('#' ::
          (upperHexByteChars (linearToSrgb simulatedLinear.1).toNat
            ++ upperHexByteChars (linearToSrgb simulatedLinear.2.1).toNat
            ++ upperHexByteChars (linearToSrgb simulatedLinear.2.2).toNat)))

/-- **C6.** On a parsable 6-digit hex color, achromatopsia simulation yields
three equal channels, each the sRGB re-encoding of the luminance-weighted
scalar `0.2126·R_lin + 0.7152·G_lin + 0.0722·B_lin` of the delinearized
channels. -/
theorem simulateCVD_achromatopsia_gray (hex : String) (r g b : ℕ)
    (h : simParse hex = some (r, g, b)) :
    simulateCVD hex CVDType.achromatopsia =
      some (String.mk ('#' ::
        (upperHexByteChars (linearToSrgb (srgbToLinear (r : ℚ) * 0.2126 +
            srgbToLinear (g : ℚ) * 0.7152 + srgbToLinear (b : ℚ) * 0.0722)).toNat
          ++ upperHexByteChars (linearToSrgb (srgbToLinear (r : ℚ) * 0.2126 +
            srgbToLinear (g : ℚ) * 0.7152 + srgbToLinear (b : ℚ) * 0.0722)).toNat
          ++ upperHexByteChars (linearToSrgb (srgbToLinear (r : ℚ) * 0.2126 +
            srgbToLinear (g : ℚ) * 0.7152 + srgbToLinear (b : ℚ) * 0.0722)).toNat))) := by
  unfold simulateCVD
  rw [if_neg (by simp), h]
  rfl

/-- Witness for C6 at `#FF0000`. -/
theorem simulateCVD_achromatopsia_gray_witness :
    simParse "#FF0000" = some (255, 0, 0) ∧
    simulateCVD "#FF0000" CVDType.achromatopsia =
      some (String.mk ('#' ::
        (upperHexByteChars (linearToSrgb (srgbToLinear ((255 : ℕ) : ℚ) * 0.2126 +
            srgbToLinear ((0 : ℕ) : ℚ) * 0.7152 + srgbToLinear ((0 : ℕ) : ℚ) * 0.0722)).toNat
          ++ upperHexByteChars (linearToSrgb (srgbToLinear ((255 : ℕ) : ℚ) * 0.2126 +
            srgbToLinear ((0 : ℕ) : ℚ) * 0.7152 + srgbToLinear ((0 : ℕ) : ℚ) * 0.0722)).toNat
          ++ upperHexByteChars (linearToSrgb (srgbToLinear ((255 : ℕ) : ℚ) * 0.2126 +
            srgbToLinear ((0 : ℕ) : ℚ) * 0.7152 + srgbToLinear ((0 : ℕ) : ℚ) * 0.0722)).toNat))) :=
  ⟨by decide, simulateCVD_achromatopsia_gray "#FF0000" 255 0 0 (by decide)⟩

/-! ## Palette exporters (`palette.ts` lines 75–227, claims C8, C9)

Six exporters share the same key-sanitization chain
`name.toLowerCase().replace(/[^a-z0-9]+/g, sep).replace(/^sep|sep$/g, '')`
with `sep` either `-` or `_`; it is factored here as `sanitizeKey`.
JavaScript's Unicode `toLowerCase` is modelled character-wise by
`Char.toLower`. -/

/-- A character matched by `[a-z0-9]` (what the sanitizer keeps after
lowercasing). -/
def isLowerAlnum (c : Char) : Bool :=
  ('a' ≤ c && c ≤ 'z') || ('0' ≤ c && c ≤ '9')

/-- `replace(/[^a-z0-9]+/g, sep)`: collapse each run of non-alphanumeric
characters to one separator; `inRun` records whether the previous character
was part of such a run. -/
def collapseAux (sep : Char) (inRun : Bool) : List Char → List Char
  | [] => []
  | c :: rest =>
    if isLowerAlnum c then c :: collapseAux sep false rest
    else if inRun then collapseAux sep true rest
    else sep :: collapseAux sep true rest

/-- First alternative of the final global replace: remove one leading
separator. -/
def stripLead (sep : Char) : List Char → List Char
  | [] => []
  | c :: rest => if c = sep then rest else c :: rest

/-- Second alternative of the final global replace: remove one trailing
separator. -/
def stripTrail (sep : Char) (l : List Char) : List Char :=
  if l.getLast? = some sep then l.dropLast else l

/-- The exporters' shared key sanitizer (`palette.ts` lines 79–82, 97–100,
114–117, 132–135, 164–167, 219–221). -/
def sanitizeKey (sep : Char) (name : String) : String :=
  String.mk (stripTrail sep (stripLead sep (collapseAux sep false (name.toList.map Char.toLower))))

/-- Key derivation of `exportAsCSS` (`palette.ts` lines 79–82). -/
def cssKey (name : String) : String := sanitizeKey '-' name

/-- Key derivation of `exportAsJSON` (`palette.ts` lines 97–100). -/
def jsonKey (name : String) : String := sanitizeKey '_' name

/-- Key derivation of `exportAsTailwind` (`palette.ts` lines 114–117). -/
def tailwindKey (name : String) : String := sanitizeKey '-' name

/-- Key derivation of `exportAsSCSS` (`palette.ts` lines 132–135, 143–146). -/
def scssKey (name : String) : String := sanitizeKey '-' name

/-- Key derivation of `exportAsDesignTokens` (`palette.ts` lines 164–167). -/
def designTokensKey (name : String) : String := sanitizeKey '-' name

/-- Key derivation of `exportAsAndroidXML` (`palette.ts` lines 218–221). -/
def androidKey (name : String) : String := sanitizeKey '_' name

/-- `exportAsCSS` (`palette.ts` lines 75–88). -/
def exportAsCSS (colors : List PaletteColor) : String :=
  String.intercalate "\n"
    ((":root \x7b" :: colors.map fun color =>
        "  --color-" ++ cssKey color.name ++ ": " ++ color.hex ++ ";") ++ ["\x7d"])

/-- JavaScript object assignment `palette[key] = hex`: later writes to an
existing key overwrite its value but keep its original position. -/
def upsert {α : Type} : List (String × α) → String × α → List (String × α)
  | [], p => [p]
  | (k, v) :: rest, (k2, v2) =>
      if k = k2 then (k, v2) :: rest else (k, v) :: upsert rest (k2, v2)

/-- The key/value map built by `exportAsJSON` (`palette.ts` lines 93–105)
before `JSON.stringify` renders it (rendering not modelled). -/
def exportAsJSONPairs (colors : List PaletteColor) : List (String × String) :=
  colors.foldl (fun palette color => upsert palette (jsonKey color.name, color.hex)) []

/-- `exportAsTailwind` (`palette.ts` lines 110–123). -/
def exportAsTailwind (colors : List PaletteColor) : String :=
  String.intercalate "\n"
    (["module.exports = \x7b", "  theme: \x7b", "    extend: \x7b", "      colors: \x7b"] ++
      (colors.map fun color =>
        "        '" ++ tailwindKey color.name ++ "': '" ++ color.hex ++ "',") ++
      ["      \x7d,", "    \x7d,", "  \x7d,", "\x7d;"])

/-- `exportAsSCSS` (`palette.ts` lines 128–152). -/
def exportAsSCSS (colors : List PaletteColor) : String :=
  String.intercalate "\n"
    ((colors.map fun color =>
        "$color-" ++ scssKey color.name ++ ": " ++ color.hex ++ ";") ++
      ["", "$colors: ("] ++
      (colors.map fun color =>
        "  '" ++ scssKey color.name ++ "': " ++ color.hex ++ ",") ++
      [");"])

/-- The token map built by `exportAsDesignTokens` (`palette.ts` lines
158–177): key ↦ (`$value` hex, `$description` original name); the constant
`$type` and `JSON.stringify` rendering are not modelled. -/
def exportAsDesignTokensPairs (colors : List PaletteColor) :
    List (String × String × String) :=
  colors.foldl
    (fun tokens color => upsert tokens (designTokensKey color.name, color.hex, color.name)) []

/-- `exportAsAndroidXML` (`palette.ts` lines 211–227). -/
def exportAsAndroidXML (colors : List PaletteColor) : String :=
  String.intercalate "\n"
    ((["<?xml version=\"1.0\" encoding=\"utf-8\"?>", "<resources>"] ++
      colors.map fun color =>
        "    <color name=\"" ++ androidKey color.name ++ "\">" ++ color.hex ++ "</color>") ++
      ["</resources>"])

/-! ### Swift exporter (`palette.ts` lines 182–206) -/

/-- A character matched by `[a-zA-Z0-9]`. -/
def isAlnumAny (c : Char) : Bool :=
  ('a' ≤ c && c ≤ 'z') || ('A' ≤ c && c ≤ 'Z') || ('0' ≤ c && c ≤ '9')

/-- `replace(/[^a-zA-Z0-9]+(.)/g, (_, chr) => chr.toUpperCase())`: each run
of non-alphanumeric characters together with the following character is
replaced by that character uppercased; a run at the end of the string with
at least two characters backtracks so that its last character is the
capture.  `fuel` bounds the recursion; `length + 1` always suffices. -/
def camelStage1 : ℕ → List Char → List Char
  | 0, l => l
  | _ + 1, [] => []
  | fuel + 1, c :: rest =>
    if isAlnumAny c then c :: camelStage1 fuel rest
    else
      match (c :: rest).dropWhile (fun x => !isAlnumAny x) with
      | d :: rem => d.toUpper :: camelStage1 fuel rem
      | [] =>
        match rest with
        | [] => [c]
        | _ :: _ => [((c :: rest).getLastD c).toUpper]

/-- `propertyName` derivation of `exportAsSwift` (`palette.ts` lines
191–194): camel-case, strip remaining non-alphanumerics, lowercase the
first character. -/
def swiftKey (name : String) : String :=
  String.mk
    (match (camelStage1 (name.toList.length + 1) name.toList).filter isAlnumAny with
      | [] => []
      | c :: rest => c.toLower :: rest)

/-- `(x).toFixed(3)` as an integer count of thousandths (round to nearest,
ties away from zero for the nonnegative inputs used here). -/
def toFixed3Num (q : ℚ) : ℕ := (⌊q * 1000 + 1/2⌋).toNat

/-- The exact rational denoted by the `toFixed(3)` output. -/
def toFixed3Rat (q : ℚ) : ℚ := ((⌊q * 1000 + 1/2⌋ : ℤ) : ℚ) / 1000

/-- Left-pad to three digits. -/
def pad3 (n : ℕ) : String :=
  (if n < 10 then "00" else if n < 100 then "0" else "") ++ toString n

/-- `(x).toFixed(3)` for the nonnegative channel fractions of
`exportAsSwift`. -/
def toFixed3 (q : ℚ) : String :=
  toString (toFixed3Num q / 1000) ++ "." ++ pad3 (toFixed3Num q % 1000)

/-- One channel float of the Swift exporter: `(ch / 255).toFixed(3)`;
a failed `parseInt` renders as `NaN` in the source. -/
def swiftChannelString : Option ℕ → String
  | some n => toFixed3 ((n : ℚ) / 255)
  | Option.none => "NaN"

/-- `parseInt(hex.substring(i, i + 2), 16)`. -/
def hexPairAt (l : List Char) (i : ℕ) : Option ℕ :=
  match l.drop i with
  | a :: b :: _ => hexPair a b
  | _ => none

/-- One `static let` line of `exportAsSwift` (`palette.ts` line 201). -/
def swiftLine (color : PaletteColor) : String :=
  "        static let " ++ swiftKey color.name ++ " = UIColor(red: " ++
    swiftChannelString (hexPairAt ((color.hex.toList).erase '#') 0) ++ ", green: " ++
    swiftChannelString (hexPairAt ((color.hex.toList).erase '#') 2) ++ ", blue: " ++
    swiftChannelString (hexPairAt ((color.hex.toList).erase '#') 4) ++ ", alpha: 1.0)"

/-- `exportAsSwift` (`palette.ts` lines 182–206). -/
def exportAsSwift (colors : List PaletteColor) : String :=
  String.intercalate "\n"
    (["import UIKit", "", "extension UIColor \x7b", "    struct Palette \x7b"] ++
      colors.map swiftLine ++ ["    \x7d", "\x7d"])

/-! ### C8: numeric agreement of the Swift exporter -/

/-- Counterexample for C8 as stated: for channel value `1` the Swift
exporter emits the float text `0.004`, which denotes `4/1000`, not the
exact `1/255` that the hex-based exporters encode. -/
theorem swift_float_precision_loss :
    swiftLine ⟨"1", "x", "#010000"⟩ =
      "        static let x = UIColor(red: 0.004, green: 0.000, blue: 0.000, alpha: 1.0)" ∧
    toFixed3 ((1 : ℚ) / 255) = "0.004" ∧
    toFixed3Rat ((1 : ℚ) / 255) = 4 / 1000 ∧
    (4 / 1000 : ℚ) ≠ (1 : ℚ) / 255 := by
  have hf : (⌊(1 : ℚ) / 255 * 1000 + 1/2⌋ : ℤ) = 4 := by norm_num
  have hf0 : (⌊(0 : ℚ) / 255 * 1000 + 1/2⌋ : ℤ) = 0 := by norm_num
  have e1 : toFixed3 ((1 : ℚ) / 255) = "0.004" := by
    unfold toFixed3 toFixed3Num
    rw [hf]
    rfl
  have e0 : toFixed3 ((0 : ℚ) / 255) = "0.000" := by
    unfold toFixed3 toFixed3Num
    rw [hf0]
    rfl
  have e1' : toFixed3 (((1 : ℕ) : ℚ) / 255) = "0.004" := by rw [Nat.cast_one]; exact e1
  have e0' : toFixed3 (((0 : ℕ) : ℚ) / 255) = "0.000" := by rw [Nat.cast_zero]; exact e0
  refine ⟨?_, e1, ?_, by norm_num⟩
  · have hp0 : hexPairAt (("#010000".toList).erase '#') 0 = some 1 := by decide
    have hp2 : hexPairAt (("#010000".toList).erase '#') 2 = some 0 := by decide
    have hp4 : hexPairAt (("#010000".toList).erase '#') 4 = some 0 := by decide
    unfold swiftLine
    rw [show (PaletteColor.mk "1" "x" "#010000").hex = "#010000" from rfl,
      show (PaletteColor.mk "1" "x" "#010000").name = "x" from rfl, hp0, hp2, hp4]
    simp only [swiftChannelString]
    rw [e1', e0']
    decide
  · unfold toFixed3Rat
    rw [hf]
    norm_num

/-- **C8 (amended: the Swift float is `channel/255` rounded to three decimal
places, not the exact value).**  The emitted float for channel `n` is
`toFixed3 (n / 255)`; the rational it denotes is within `1/2000` of
`n / 255`, and rounding it back through `× 255` recovers the channel
exactly — but it is not in general equal to `n / 255` (see the
counterexample). -/
theorem swift_channel_float_spec (n : ℕ) (h : n ≤ 255) :
    swiftChannelString (some n) = toFixed3 ((n : ℚ) / 255) ∧
    |toFixed3Rat ((n : ℚ) / 255) - (n : ℚ) / 255| ≤ 1 / 2000 ∧
    jround (toFixed3Rat ((n : ℚ) / 255) * 255) = n := by
  have hfl : ((⌊(n : ℚ) / 255 * 1000 + 1/2⌋ : ℤ) : ℚ) ≤ (n : ℚ) / 255 * 1000 + 1/2 :=
    Int.floor_le _
  have hfu : (n : ℚ) / 255 * 1000 + 1/2 < (⌊(n : ℚ) / 255 * 1000 + 1/2⌋ : ℤ) + 1 :=
    Int.lt_floor_add_one _
  refine ⟨rfl, ?_, ?_⟩
  · unfold toFixed3Rat
    rw [abs_le]
    constructor <;> linarith
  · unfold toFixed3Rat jround
    rw [Int.floor_eq_iff]
    constructor
    · push_cast
      linarith
    · push_cast
      linarith

/-- Witness for C8's amended theorem at channel value 1. -/
theorem swift_channel_float_spec_witness :
    1 ≤ 255 ∧
    (swiftChannelString (some 1) = toFixed3 (((1 : ℕ) : ℚ) / 255) ∧
      |toFixed3Rat (((1 : ℕ) : ℚ) / 255) - ((1 : ℕ) : ℚ) / 255| ≤ 1 / 2000 ∧
      jround (toFixed3Rat (((1 : ℕ) : ℚ) / 255) * 255) = 1) :=
  ⟨by omega, swift_channel_float_spec 1 (by omega)⟩

/-! ### C9: sanitized keys under case/punctuation changes -/

/-- Two names differ only in letter case or in punctuation: they have the
same length and, position by position, either the characters agree up to
`toLower` or both are non-alphanumeric. -/
def caseOrPunctEqb : List Char → List Char → Bool
  | [], [] => true
  | c :: cs, d :: ds =>
      ((c.toLower == d.toLower) ||
        (!(isLowerAlnum c.toLower) && !(isLowerAlnum d.toLower))) &&
        caseOrPunctEqb cs ds
  | _, _ => false

lemma collapseAux_congr (sep : Char) :
    ∀ a b : List Char, caseOrPunctEqb a b = true →
      ∀ st : Bool,
        collapseAux sep st (a.map Char.toLower) = collapseAux sep st (b.map Char.toLower) := by
  intro a
  induction a with
  | nil =>
    intro b h st
    cases b with
    | nil => rfl
    | cons d ds => simp [caseOrPunctEqb] at h
  | cons c cs ih =>
    intro b h st
    cases b with
    | nil => simp [caseOrPunctEqb] at h
    | cons d ds =>
      simp only [caseOrPunctEqb, Bool.and_eq_true] at h
      obtain ⟨h1, h2⟩ := h
      simp only [List.map_cons]
      rw [Bool.or_eq_true] at h1
      rcases h1 with heq | hpp
      · have heq' : c.toLower = d.toLower := beq_iff_eq.mp heq
        rw [heq']
        simp only [collapseAux]
        split_ifs
        · exact congrArg _ (ih ds h2 false)
        · exact ih ds h2 true
        · exact congrArg _ (ih ds h2 true)
      · rw [Bool.and_eq_true] at hpp
        obtain ⟨hc, hd⟩ := hpp
        have hc' : isLowerAlnum c.toLower = false := by
          cases hx : isLowerAlnum c.toLower
          · rfl
          · rw [hx] at hc; simp at hc
        have hd' : isLowerAlnum d.toLower = false := by
          cases hx : isLowerAlnum d.toLower
          · rfl
          · rw [hx] at hd; simp at hd
        simp only [collapseAux, hc', hd', Bool.false_eq_true, if_false]
        cases st with
        | true => exact ih ds h2 true
        | false => exact congrArg (sep :: ·) (ih ds h2 true)

lemma sanitizeKey_congr (sep : Char) (a b : String)
    (h : caseOrPunctEqb a.toList b.toList = true) :
    sanitizeKey sep a = sanitizeKey sep b := by
  unfold sanitizeKey
  rw [collapseAux_congr sep a.toList b.toList h false]

/-- Counterexample for C9 as stated: the names `"AB"` and `"ab"` differ only
in letter case, yet the Swift exporter derives the keys `"aB"` and `"ab"` —
so not all seven exporters agree. -/
theorem swiftKey_not_case_invariant :
    caseOrPunctEqb "AB".toList "ab".toList = true ∧
    swiftKey "AB" = "aB" ∧ swiftKey "ab" = "ab" ∧ swiftKey "AB" ≠ swiftKey "ab" := by
  refine ⟨by decide, by decide, by decide, by decide⟩

/-- **C9 (amended: only the six lowercasing exporters agree).**  For names
that differ only in letter case or punctuation, the CSS, SCSS, Tailwind,
Design-Tokens, JSON and Android-XML exporters each derive the same
sanitized key from both names; the Swift exporter's camel-cased key may
differ when the case differs (see the counterexample). -/
theorem exporter_keys_case_punct_invariant (a b : String)
    (h : caseOrPunctEqb a.toList b.toList = true) :
    cssKey a = cssKey b ∧ scssKey a = scssKey b ∧ tailwindKey a = tailwindKey b ∧
    designTokensKey a = designTokensKey b ∧ jsonKey a = jsonKey b ∧
    androidKey a = androidKey b := by
  have h1 := sanitizeKey_congr '-' a b h
  have h2 := sanitizeKey_congr '_' a b h
  exact ⟨h1, h1, h1, h1, h2, h2⟩

/-- Witness for C9's amended theorem on `"Sky Blue"` vs `"sky-blue"`. -/
theorem exporter_keys_case_punct_invariant_witness :
    caseOrPunctEqb "Sky Blue".toList "sky-blue".toList = true ∧
    (cssKey "Sky Blue" = cssKey "sky-blue" ∧
      scssKey "Sky Blue" = scssKey "sky-blue" ∧
      tailwindKey "Sky Blue" = tailwindKey "sky-blue" ∧
      designTokensKey "Sky Blue" = designTokensKey "sky-blue" ∧
      jsonKey "Sky Blue" = jsonKey "sky-blue" ∧
      androidKey "Sky Blue" = androidKey "sky-blue") :=
  ⟨by decide, exporter_keys_case_punct_invariant "Sky Blue" "sky-blue" (by decide)⟩

/-! ## HSL round-trip (claim C7)

On integer-valued channels the conversion `rgbToHsl` followed by
`hslToRgb` is exact: every intermediate computation is rational and the
standard formulas invert each other, so the final `Math.round` reproduces
the original channels.  The proof goes sector by sector through the hue
`switch`. -/

lemma hue2rgbT_of_mem (t0 : ℚ) (h0 : 0 ≤ t0) (h1 : t0 ≤ 1) : hue2rgbT t0 = t0 := by
  unfold hue2rgbT
  simp only [if_neg (not_lt.mpr h0)]
  rw [if_neg (not_lt.mpr h1)]

lemma hue2rgbT_of_neg (t0 : ℚ) (h0 : t0 < 0) : hue2rgbT t0 = t0 + 1 := by
  unfold hue2rgbT
  simp only [if_pos h0]
  rw [if_neg (by linarith)]

lemma hue2rgbT_of_gt_one (t0 : ℚ) (h0 : 1 < t0) : hue2rgbT t0 = t0 - 1 := by
  unfold hue2rgbT
  simp only [if_neg (show ¬t0 < 0 from by linarith)]
  rw [if_pos h0]

lemma hue2rgb_eval_A (p q t0 : ℚ) (h : hue2rgbT t0 < 1/6) :
    hue2rgb p q t0 = p + (q - p) * 6 * hue2rgbT t0 := by
  unfold hue2rgb
  rw [if_pos h]

lemma hue2rgb_eval_B (p q t0 : ℚ) (h0 : 1/6 ≤ hue2rgbT t0) (h1 : hue2rgbT t0 ≤ 1/2) :
    hue2rgb p q t0 = q := by
  unfold hue2rgb
  rw [if_neg (not_lt.mpr h0)]
  by_cases h : hue2rgbT t0 < 1/2
  · rw [if_pos h]
  · have he : hue2rgbT t0 = 1/2 := le_antisymm h1 (not_lt.mp h)
    rw [if_neg h, if_pos (by rw [he]; norm_num), he]
    ring

lemma hue2rgb_eval_C (p q t0 : ℚ) (h0 : 1/2 ≤ hue2rgbT t0) (h1 : hue2rgbT t0 < 2/3) :
    hue2rgb p q t0 = p + (q - p) * (2/3 - hue2rgbT t0) * 6 := by
  unfold hue2rgb
  rw [if_neg (by linarith), if_neg (not_lt.mpr h0), if_pos h1]

lemma hue2rgb_eval_D (p q t0 : ℚ) (h0 : 2/3 ≤ hue2rgbT t0) :
    hue2rgb p q t0 = p := by
  unfold hue2rgb
  rw [if_neg (by linarith), if_neg (by linarith), if_neg (not_lt.mpr h0)]

lemma le_rgbMax_r (rgb : RGB) : rgb.r / 255 ≤ rgbMax rgb := le_max_left _ _

lemma le_rgbMax_g (rgb : RGB) : rgb.g / 255 ≤ rgbMax rgb :=
  le_max_of_le_right (le_max_left _ _)

lemma le_rgbMax_b (rgb : RGB) : rgb.b / 255 ≤ rgbMax rgb :=
  le_max_of_le_right (le_max_right _ _)

lemma rgbMin_le_r (rgb : RGB) : rgbMin rgb ≤ rgb.r / 255 := min_le_left _ _

lemma rgbMin_le_g (rgb : RGB) : rgbMin rgb ≤ rgb.g / 255 :=
  le_trans (min_le_right _ _) (min_le_left _ _)

lemma rgbMin_le_b (rgb : RGB) : rgbMin rgb ≤ rgb.b / 255 :=
  le_trans (min_le_right _ _) (min_le_right _ _)

lemma rgbMin_le_rgbMax (rgb : RGB) : rgbMin rgb ≤ rgbMax rgb :=
  le_trans (rgbMin_le_r rgb) (le_rgbMax_r rgb)

lemma rgbMin_nonneg (rgb : RGB) (h : InRange rgb) : 0 ≤ rgbMin rgb := by
  obtain ⟨h1, _, h3, _, h5, _⟩ := h
  exact le_min (by positivity) (le_min (by positivity) (by positivity))

lemma rgbMax_le_one (rgb : RGB) (h : InRange rgb) : rgbMax rgb ≤ 1 := by
  obtain ⟨_, h2, _, h4, _, h6⟩ := h
  exact max_le (by rw [div_le_one (by norm_num)]; exact h2)
    (max_le (by rw [div_le_one (by norm_num)]; exact h4)
      (by rw [div_le_one (by norm_num)]; exact h6))

lemma rgbToHsl_l_div (rgb : RGB) : (rgbToHsl rgb).l / 100 = hslLf rgb := by
  show hslLf rgb * 100 / 100 = hslLf rgb
  field_simp

lemma rgbToHsl_s_div (rgb : RGB) : (rgbToHsl rgb).s / 100 = hslSf rgb := by
  show hslSf rgb * 100 / 100 = hslSf rgb
  field_simp

lemma rgbToHsl_h_div (rgb : RGB) : (rgbToHsl rgb).h / 360 = hslHf rgb := by
  show hslHf rgb * 360 / 360 = hslHf rgb
  field_simp

lemma hslSf_pos (rgb : RGB) (h : InRange rgb) (hne : rgbMax rgb ≠ rgbMin rgb) :
    0 < hslSf rgb := by
  have hmM : rgbMin rgb < rgbMax rgb :=
    lt_of_le_of_ne (rgbMin_le_rgbMax rgb) (fun he => hne he.symm)
  have hm0 := rgbMin_nonneg rgb h
  have hM1 := rgbMax_le_one rgb h
  unfold hslSf
  rw [if_neg hne]
  split_ifs with hL
  · exact div_pos (by linarith) (by linarith)
  · exact div_pos (by linarith) (by linarith)

lemma hslQ_hslP_eq (rgb : RGB) (h : InRange rgb) (hne : rgbMax rgb ≠ rgbMin rgb) :
    hslQ (rgbToHsl rgb) = rgbMax rgb ∧ hslP (rgbToHsl rgb) = rgbMin rgb := by
  have hmM : rgbMin rgb < rgbMax rgb :=
    lt_of_le_of_ne (rgbMin_le_rgbMax rgb) (fun he => hne he.symm)
  have hm0 := rgbMin_nonneg rgb h
  have hM1 := rgbMax_le_one rgb h
  have hM0 : 0 < rgbMax rgb := lt_of_le_of_lt hm0 hmM
  have hMm0 : 0 < rgbMax rgb + rgbMin rgb := by linarith
  have hq : hslQ (rgbToHsl rgb) = rgbMax rgb := by
    unfold hslQ
    rw [rgbToHsl_l_div, rgbToHsl_s_div]
    unfold hslSf
    rw [if_neg hne]
    unfold hslLf
    by_cases hL : (rgbMax rgb + rgbMin rgb) / 2 < 1/2
    · rw [if_pos hL, if_neg (by linarith)]
      field_simp
      ring
    · by_cases hL2 : 1/2 < (rgbMax rgb + rgbMin rgb) / 2
      · rw [if_neg hL, if_pos (by linarith)]
        have h2 : 0 < 2 - rgbMax rgb - rgbMin rgb := by linarith
        field_simp
        ring
      · have hMm1 : rgbMax rgb + rgbMin rgb = 1 := by
          have ha := not_lt.mp hL
          have hb := not_lt.mp hL2
          linarith
        rw [if_neg hL, if_neg (by linarith)]
        rw [hMm1]
        norm_num
        linarith
  refine ⟨hq, ?_⟩
  unfold hslP
  rw [rgbToHsl_l_div, hq]
  unfold hslLf
  ring

lemma hueA1 (M G B H : ℚ) (hd : 0 < M - B) (hGM : G ≤ M) (hGB : B ≤ G)
    (hH : H = (G - B) / (M - B) / 6) :
    hue2rgb B M (H + 1/3) = M ∧ hue2rgb B M H = G ∧ hue2rgb B M (H - 1/3) = B := by
  have hMB : M - B ≠ 0 := by linarith
  have h1 : 0 ≤ (G - B) / (M - B) := div_nonneg (by linarith) (by linarith)
  have h2 : (G - B) / (M - B) ≤ 1 := (div_le_one (by linarith)).mpr (by linarith)
  have hH0 : 0 ≤ H := by rw [hH]; linarith
  have hH16 : H ≤ 1/6 := by rw [hH]; linarith
  refine ⟨?_, ?_, ?_⟩
  · have ht : hue2rgbT (H + 1/3) = H + 1/3 :=
      hue2rgbT_of_mem _ (by linarith) (by linarith)
    exact hue2rgb_eval_B _ _ _ (by rw [ht]; linarith) (by rw [ht]; linarith)
  · by_cases h6 : H < 1/6
    · have ht : hue2rgbT H = H := hue2rgbT_of_mem _ hH0 (by linarith)
      rw [hue2rgb_eval_A _ _ _ (by rw [ht]; exact h6), ht, hH]
      field_simp
    · have hHe : H = 1/6 := le_antisymm hH16 (not_lt.mp h6)
      have hGM' : G = M := by
        have h1' : (G - B) / (M - B) = 1 := by rw [hH] at hHe; linarith
        rw [div_eq_iff hMB] at h1'
        linarith
      have ht : hue2rgbT H = H := hue2rgbT_of_mem _ hH0 (by linarith)
      rw [hue2rgb_eval_B _ _ _ (by rw [ht]; linarith) (by rw [ht]; linarith)]
      exact hGM'.symm
  · have ht : hue2rgbT (H - 1/3) = H - 1/3 + 1 := hue2rgbT_of_neg _ (by linarith)
    exact hue2rgb_eval_D _ _ _ (by rw [ht]; linarith)

lemma hueA2 (M G B H : ℚ) (hd : 0 < M - G) (hBM : B ≤ M) (hGB : G < B)
    (hH : H = ((G - B) / (M - G) + 6) / 6) :
    hue2rgb G M (H + 1/3) = M ∧ hue2rgb G M H = G ∧ hue2rgb G M (H - 1/3) = B := by
  have hMG : M - G ≠ 0 := by linarith
  have h1 : -1 ≤ (G - B) / (M - G) := by
    rw [le_div_iff₀ (by linarith)]
    linarith
  have h2 : (G - B) / (M - G) < 0 := div_neg_of_neg_of_pos (by linarith) (by linarith)
  have hH1 : 5/6 ≤ H := by rw [hH]; linarith
  have hH2 : H < 1 := by rw [hH]; linarith
  refine ⟨?_, ?_, ?_⟩
  · have ht : hue2rgbT (H + 1/3) = H + 1/3 - 1 :=
      hue2rgbT_of_gt_one _ (by linarith)
    exact hue2rgb_eval_B _ _ _ (by rw [ht]; linarith) (by rw [ht]; linarith)
  · have ht : hue2rgbT H = H := hue2rgbT_of_mem _ (by linarith) (by linarith)
    exact hue2rgb_eval_D _ _ _ (by rw [ht]; linarith)
  · have ht : hue2rgbT (H - 1/3) = H - 1/3 :=
      hue2rgbT_of_mem _ (by linarith) (by linarith)
    rw [hue2rgb_eval_C _ _ _ (by rw [ht]; linarith) (by rw [ht]; linarith), ht, hH]
    field_simp
    ring

lemma hueB1 (M R B H : ℚ) (hd : 0 < M - B) (hRM : R ≤ M) (hBR : B ≤ R)
    (hH : H = ((B - R) / (M - B) + 2) / 6) :
    hue2rgb B M (H + 1/3) = R ∧ hue2rgb B M H = M ∧ hue2rgb B M (H - 1/3) = B := by
  have hMB : M - B ≠ 0 := by linarith
  have h1 : -1 ≤ (B - R) / (M - B) := by
    rw [le_div_iff₀ (by linarith)]
    linarith
  have h2 : (B - R) / (M - B) ≤ 0 := div_nonpos_of_nonpos_of_nonneg (by linarith) (by linarith)
  have hH1 : 1/6 ≤ H := by rw [hH]; linarith
  have hH2 : H ≤ 1/3 := by rw [hH]; linarith
  refine ⟨?_, ?_, ?_⟩
  · have ht : hue2rgbT (H + 1/3) = H + 1/3 :=
      hue2rgbT_of_mem _ (by linarith) (by linarith)
    by_cases hc : H + 1/3 < 2/3
    · rw [hue2rgb_eval_C _ _ _ (by rw [ht]; linarith) (by rw [ht]; exact hc), ht, hH]
      field_simp
      ring
    · have hHe : H = 1/3 := le_antisymm hH2 (by linarith)
      have hBR' : B = R := by
        have h1' : (B - R) / (M - B) = 0 := by rw [hH] at hHe; linarith
        rw [div_eq_iff hMB] at h1'
        linarith
      rw [hue2rgb_eval_D _ _ _ (by rw [ht]; linarith)]
      exact hBR'
  · have ht : hue2rgbT H = H := hue2rgbT_of_mem _ (by linarith) (by linarith)
    exact hue2rgb_eval_B _ _ _ (by rw [ht]; linarith) (by rw [ht]; linarith)
  · by_cases hneg : H - 1/3 < 0
    · have ht : hue2rgbT (H - 1/3) = H - 1/3 + 1 := hue2rgbT_of_neg _ hneg
      exact hue2rgb_eval_D _ _ _ (by rw [ht]; linarith)
    · have hHe : H = 1/3 := le_antisymm hH2 (by linarith)
      have ht : hue2rgbT (H - 1/3) = H - 1/3 :=
        hue2rgbT_of_mem _ (by linarith) (by linarith)
      rw [hue2rgb_eval_A _ _ _ (by rw [ht, hHe]; norm_num), ht, hHe]
      ring

lemma hueB2 (M R B H : ℚ) (hd : 0 < M - R) (hBM : B ≤ M) (hRB : R < B)
    (hH : H = ((B - R) / (M - R) + 2) / 6) :
    hue2rgb R M (H + 1/3) = R ∧ hue2rgb R M H = M ∧ hue2rgb R M (H - 1/3) = B := by
  have hMR : M - R ≠ 0 := by linarith
  have h1 : 0 < (B - R) / (M - R) := div_pos (by linarith) (by linarith)
  have h2 : (B - R) / (M - R) ≤ 1 := (div_le_one (by linarith)).mpr (by linarith)
  have hH1 : 1/3 < H := by rw [hH]; linarith
  have hH2 : H ≤ 1/2 := by rw [hH]; linarith
  refine ⟨?_, ?_, ?_⟩
  · have ht : hue2rgbT (H + 1/3) = H + 1/3 :=
      hue2rgbT_of_mem _ (by linarith) (by linarith)
    exact hue2rgb_eval_D _ _ _ (by rw [ht]; linarith)
  · have ht : hue2rgbT H = H := hue2rgbT_of_mem _ (by linarith) (by linarith)
    exact hue2rgb_eval_B _ _ _ (by rw [ht]; linarith) (by rw [ht]; linarith)
  · have ht : hue2rgbT (H - 1/3) = H - 1/3 :=
      hue2rgbT_of_mem _ (by linarith) (by linarith)
    by_cases hc : H - 1/3 < 1/6
    · rw [hue2rgb_eval_A _ _ _ (by rw [ht]; exact hc), ht, hH]
      field_simp
      ring
    · have hHe : H = 1/2 := le_antisymm hH2 (by linarith)
      have hBM' : B = M := by
        have h1' : (B - R) / (M - R) = 1 := by rw [hH] at hHe; linarith
        rw [div_eq_iff hMR] at h1'
        linarith
      rw [hue2rgb_eval_B _ _ _ (by rw [ht]; linarith) (by rw [ht]; linarith)]
      exact hBM'.symm

lemma hueC1 (M R G H : ℚ) (hd : 0 < M - R) (hGM : G ≤ M) (hRG : R ≤ G)
    (hH : H = ((R - G) / (M - R) + 4) / 6) :
    hue2rgb R M (H + 1/3) = R ∧ hue2rgb R M H = G ∧ hue2rgb R M (H - 1/3) = M := by
  have hMR : M - R ≠ 0 := by linarith
  have h1 : -1 ≤ (R - G) / (M - R) := by
    rw [le_div_iff₀ (by linarith)]
    linarith
  have h2 : (R - G) / (M - R) ≤ 0 := div_nonpos_of_nonpos_of_nonneg (by linarith) (by linarith)
  have hH1 : 1/2 ≤ H := by rw [hH]; linarith
  have hH2 : H ≤ 2/3 := by rw [hH]; linarith
  refine ⟨?_, ?_, ?_⟩
  · have ht : hue2rgbT (H + 1/3) = H + 1/3 :=
      hue2rgbT_of_mem _ (by linarith) (by linarith)
    exact hue2rgb_eval_D _ _ _ (by rw [ht]; linarith)
  · have ht : hue2rgbT H = H := hue2rgbT_of_mem _ (by linarith) (by linarith)
    by_cases hc : H < 2/3
    · rw [hue2rgb_eval_C _ _ _ (by rw [ht]; linarith) (by rw [ht]; exact hc), ht, hH]
      field_simp
      ring
    · have hHe : H = 2/3 := le_antisymm hH2 (not_lt.mp hc)
      have hRG' : R = G := by
        have h1' : (R - G) / (M - R) = 0 := by rw [hH] at hHe; linarith
        rw [div_eq_iff hMR] at h1'
        linarith
      rw [hue2rgb_eval_D _ _ _ (by rw [ht]; linarith)]
      exact hRG'
  · have ht : hue2rgbT (H - 1/3) = H - 1/3 :=
      hue2rgbT_of_mem _ (by linarith) (by linarith)
    exact hue2rgb_eval_B _ _ _ (by rw [ht]; linarith) (by rw [ht]; linarith)

lemma hueC2 (M R G H : ℚ) (hd : 0 < M - G) (hRM : R < M) (hGR : G < R)
    (hH : H = ((R - G) / (M - G) + 4) / 6) :
    hue2rgb G M (H + 1/3) = R ∧ hue2rgb G M H = G ∧ hue2rgb G M (H - 1/3) = M := by
  have hMG : M - G ≠ 0 := by linarith
  have h1 : 0 < (R - G) / (M - G) := div_pos (by linarith) (by linarith)
  have h2 : (R - G) / (M - G) < 1 := (div_lt_one (by linarith)).mpr (by linarith)
  have hH1 : 2/3 < H := by rw [hH]; linarith
  have hH2 : H < 5/6 := by rw [hH]; linarith
  refine ⟨?_, ?_, ?_⟩
  · have ht : hue2rgbT (H + 1/3) = H + 1/3 - 1 :=
      hue2rgbT_of_gt_one _ (by linarith)
    rw [hue2rgb_eval_A _ _ _ (by rw [ht]; linarith), ht, hH]
    field_simp
    ring
  · have ht : hue2rgbT H = H := hue2rgbT_of_mem _ (by linarith) (by linarith)
    exact hue2rgb_eval_D _ _ _ (by rw [ht]; linarith)
  · have ht : hue2rgbT (H - 1/3) = H - 1/3 :=
      hue2rgbT_of_mem _ (by linarith) (by linarith)
    exact hue2rgb_eval_B _ _ _ (by rw [ht]; linarith) (by rw [ht]; linarith)

/-- On valid channels the HSL round-trip is exact up to the final
`Math.round`: converting to HSL and back rounds each original channel. -/
lemma hsl_roundtrip_exact (rgb : RGB) (h : InRange rgb) :
    hslToRgb (rgbToHsl rgb) =
      ⟨((jround rgb.r : ℤ) : ℚ), ((jround rgb.g : ℤ) : ℚ), ((jround rgb.b : ℤ) : ℚ)⟩ := by
  have hR255 : rgb.r / 255 * 255 = rgb.r := by field_simp
  have hG255 : rgb.g / 255 * 255 = rgb.g := by field_simp
  have hB255 : rgb.b / 255 * 255 = rgb.b := by field_simp
  by_cases hne : rgbMax rgb = rgbMin rgb
  · -- max = min: saturation 0, all channels equal the lightness
    have hs0 : hslSf rgb = 0 := by unfold hslSf; rw [if_pos hne]
    have hRM : rgb.r / 255 = rgbMax rgb :=
      le_antisymm (le_rgbMax_r rgb) (by rw [hne]; exact rgbMin_le_r rgb)
    have hGM : rgb.g / 255 = rgbMax rgb :=
      le_antisymm (le_rgbMax_g rgb) (by rw [hne]; exact rgbMin_le_g rgb)
    have hBM : rgb.b / 255 = rgbMax rgb :=
      le_antisymm (le_rgbMax_b rgb) (by rw [hne]; exact rgbMin_le_b rgb)
    have e : hslLf rgb = rgbMax rgb := by unfold hslLf; rw [hne]; ring
    have er : hslLf rgb * 255 = rgb.r := by rw [e, ← hRM]; exact hR255
    have eg : hslLf rgb * 255 = rgb.g := by rw [e, ← hGM]; exact hG255
    have eb : hslLf rgb * 255 = rgb.b := by rw [e, ← hBM]; exact hB255
    unfold hslToRgb
    rw [rgbToHsl_s_div, hs0, if_pos rfl, rgbToHsl_l_div]
    simp only [RGB.mk.injEq]
    exact ⟨by rw [er], by rw [eg], by rw [eb]⟩
  · obtain ⟨hq, hp⟩ := hslQ_hslP_eq rgb h hne
    have hmM : rgbMin rgb < rgbMax rgb :=
      lt_of_le_of_ne (rgbMin_le_rgbMax rgb) (fun he => hne he.symm)
    have hd : 0 < rgbMax rgb - rgbMin rgb := by linarith
    have hsne : ¬((rgbToHsl rgb).s / 100 = 0) := by
      rw [rgbToHsl_s_div]
      exact ne_of_gt (hslSf_pos rgb h hne)
    have trio :
        hue2rgb (rgbMin rgb) (rgbMax rgb) (hslHf rgb + 1/3) = rgb.r / 255 ∧
        hue2rgb (rgbMin rgb) (rgbMax rgb) (hslHf rgb) = rgb.g / 255 ∧
        hue2rgb (rgbMin rgb) (rgbMax rgb) (hslHf rgb - 1/3) = rgb.b / 255 := by
      by_cases cR : rgbMax rgb = rgb.r / 255
      · have hHf : hslHf rgb =
            ((rgb.g / 255 - rgb.b / 255) / (rgbMax rgb - rgbMin rgb) +
              (if rgb.g / 255 < rgb.b / 255 then (6 : ℚ) else 0)) / 6 := by
          unfold hslHf
          rw [if_neg hne, if_pos cR]
        by_cases cgb : rgb.g / 255 < rgb.b / 255
        · -- sector: max is r, g < b, min is g
          have hGR : rgb.g / 255 ≤ rgb.r / 255 := by
            have := le_rgbMax_g rgb; rw [cR] at this; exact this
          have hmG : rgbMin rgb = rgb.g / 255 := by
            unfold rgbMin
            rw [min_eq_left cgb.le, min_eq_right hGR]
          have hHf' : hslHf rgb =
              ((rgb.g / 255 - rgb.b / 255) / (rgbMax rgb - rgbMin rgb) + 6) / 6 := by
            rw [hHf, if_pos cgb]
          rw [hmG] at hd hHf' ⊢
          have res := hueA2 (rgbMax rgb) (rgb.g / 255) (rgb.b / 255) (hslHf rgb)
            hd (le_rgbMax_b rgb) cgb hHf'
          exact ⟨res.1.trans cR, res.2.1, res.2.2⟩
        · -- sector: max is r, b ≤ g, min is b
          have hGB : rgb.b / 255 ≤ rgb.g / 255 := not_lt.mp cgb
          have hBR : rgb.b / 255 ≤ rgb.r / 255 := by
            have := le_rgbMax_b rgb; rw [cR] at this; exact this
          have hmB : rgbMin rgb = rgb.b / 255 := by
            unfold rgbMin
            rw [min_eq_right hGB, min_eq_right hBR]
          have hHf' : hslHf rgb =
              (rgb.g / 255 - rgb.b / 255) / (rgbMax rgb - rgbMin rgb) / 6 := by
            rw [hHf, if_neg cgb, add_zero]
          rw [hmB] at hd hHf' ⊢
          have res := hueA1 (rgbMax rgb) (rgb.g / 255) (rgb.b / 255) (hslHf rgb)
            hd (le_rgbMax_g rgb) hGB hHf'
          exact ⟨res.1.trans cR, res.2.1, res.2.2⟩
      · by_cases cG : rgbMax rgb = rgb.g / 255
        · have hHf : hslHf rgb =
              ((rgb.b / 255 - rgb.r / 255) / (rgbMax rgb - rgbMin rgb) + 2) / 6 := by
            unfold hslHf
            rw [if_neg hne, if_neg cR, if_pos cG]
          have hBG : rgb.b / 255 ≤ rgb.g / 255 := by
            have := le_rgbMax_b rgb; rw [cG] at this; exact this
          have hmRB : rgbMin rgb = min (rgb.r / 255) (rgb.b / 255) := by
            unfold rgbMin
            rw [min_eq_right hBG]
          by_cases cBR : rgb.b / 255 ≤ rgb.r / 255
          · -- sector: max is g, b ≤ r, min is b
            have hmB : rgbMin rgb = rgb.b / 255 := by rw [hmRB, min_eq_right cBR]
            rw [hmB] at hd hHf ⊢
            have res := hueB1 (rgbMax rgb) (rgb.r / 255) (rgb.b / 255) (hslHf rgb)
              hd (le_rgbMax_r rgb) cBR hHf
            exact ⟨res.1, res.2.1.trans cG, res.2.2⟩
          · -- sector: max is g, r < b, min is r
            have hRB : rgb.r / 255 < rgb.b / 255 := not_le.mp cBR
            have hmR : rgbMin rgb = rgb.r / 255 := by rw [hmRB, min_eq_left hRB.le]
            rw [hmR] at hd hHf ⊢
            have res := hueB2 (rgbMax rgb) (rgb.r / 255) (rgb.b / 255) (hslHf rgb)
              hd (le_rgbMax_b rgb) hRB hHf
            exact ⟨res.1, res.2.1.trans cG, res.2.2⟩
        · have cB : rgbMax rgb = rgb.b / 255 := by
            rcases max_choice (rgb.r / 255) (max (rgb.g / 255) (rgb.b / 255)) with h1 | h1
            · exact absurd h1 cR
            · rcases max_choice (rgb.g / 255) (rgb.b / 255) with h2 | h2
              · refine absurd ?_ cG
                unfold rgbMax
                rw [h1, h2]
              · unfold rgbMax
                rw [h1, h2]
          have hHf : hslHf rgb =
              ((rgb.r / 255 - rgb.g / 255) / (rgbMax rgb - rgbMin rgb) + 4) / 6 := by
            unfold hslHf
            rw [if_neg hne, if_neg cR, if_neg cG]
          have hGB : rgb.g / 255 ≤ rgb.b / 255 := by
            have := le_rgbMax_g rgb; rw [cB] at this; exact this
          have hmRG : rgbMin rgb = min (rgb.r / 255) (rgb.g / 255) := by
            unfold rgbMin
            rw [min_eq_left hGB]
          by_cases cRG : rgb.r / 255 ≤ rgb.g / 255
          · -- sector: max is b, r ≤ g, min is r
            have hmR : rgbMin rgb = rgb.r / 255 := by rw [hmRG, min_eq_left cRG]
            rw [hmR] at hd hHf ⊢
            have res := hueC1 (rgbMax rgb) (rgb.r / 255) (rgb.g / 255) (hslHf rgb)
              hd (le_rgbMax_g rgb) cRG hHf
            exact ⟨res.1, res.2.1, res.2.2.trans cB⟩
          · -- sector: max is b, g < r, min is g
            have hGR : rgb.g / 255 < rgb.r / 255 := not_le.mp cRG
            have hRM : rgb.r / 255 < rgbMax rgb :=
              lt_of_le_of_ne (le_rgbMax_r rgb) (fun e => cR e.symm)
            have hmG : rgbMin rgb = rgb.g / 255 := by rw [hmRG, min_eq_right hGR.le]
            rw [hmG] at hd hHf ⊢
            have res := hueC2 (rgbMax rgb) (rgb.r / 255) (rgb.g / 255) (hslHf rgb)
              hd hRM hGR hHf
            exact ⟨res.1, res.2.1, res.2.2.trans cB⟩
    unfold hslToRgb
    rw [if_neg hsne, rgbToHsl_h_div, hq, hp]
    simp only [RGB.mk.injEq]
    exact ⟨by rw [trio.1, hR255], by rw [trio.2.1, hG255], by rw [trio.2.2, hB255]⟩

/-- **C7.** For integer channels in `[0, 255]`, converting to HSL and back
changes each channel by at most 1 (in fact the round trip is exact; see
`hsl_roundtrip_exact`). -/
theorem hslToRgb_rgbToHsl_within_one (r g b : ℕ)
    (hr : r ≤ 255) (hg : g ≤ 255) (hb : b ≤ 255) :
    |(hslToRgb (rgbToHsl ⟨(r : ℚ), (g : ℚ), (b : ℚ)⟩)).r - (r : ℚ)| ≤ 1 ∧
    |(hslToRgb (rgbToHsl ⟨(r : ℚ), (g : ℚ), (b : ℚ)⟩)).g - (g : ℚ)| ≤ 1 ∧
    |(hslToRgb (rgbToHsl ⟨(r : ℚ), (g : ℚ), (b : ℚ)⟩)).b - (b : ℚ)| ≤ 1 := by
  have hIn : InRange ⟨(r : ℚ), (g : ℚ), (b : ℚ)⟩ := by
    unfold InRange
    dsimp only
    exact ⟨by positivity, by exact_mod_cast hr, by positivity, by exact_mod_cast hg,
      by positivity, by exact_mod_cast hb⟩
  rw [hsl_roundtrip_exact _ hIn]
  refine ⟨?_, ?_, ?_⟩ <;>
    simp [jround_natCast]

/-- Witness for C7 at a concrete color. -/
theorem hslToRgb_rgbToHsl_within_one_witness :
    (10 ≤ 255 ∧ 200 ≤ 255 ∧ 30 ≤ 255) ∧
    (|(hslToRgb (rgbToHsl ⟨((10 : ℕ) : ℚ), ((200 : ℕ) : ℚ), ((30 : ℕ) : ℚ)⟩)).r -
        ((10 : ℕ) : ℚ)| ≤ 1 ∧
      |(hslToRgb (rgbToHsl ⟨((10 : ℕ) : ℚ), ((200 : ℕ) : ℚ), ((30 : ℕ) : ℚ)⟩)).g -
        ((200 : ℕ) : ℚ)| ≤ 1 ∧
      |(hslToRgb (rgbToHsl ⟨((10 : ℕ) : ℚ), ((200 : ℕ) : ℚ), ((30 : ℕ) : ℚ)⟩)).b -
        ((30 : ℕ) : ℚ)| ≤ 1) :=
  ⟨by omega, hslToRgb_rgbToHsl_within_one 10 200 30 (by omega) (by omega) (by omega)⟩

end HuePass
